import Mathlib

/-!
Verification development for the finance analysis engine of
`actual-budget-reporter` (`src/analyzer.py`, with the `Transaction` record
shape from `src/actual_client.py`).

Modelling conventions:
* Python `int` is `Int` (amounts are minor currency units / cents).
* Python `float` arithmetic (dollar conversion `amount / 100`, the ratio
  comparisons against `0.30`, `1.3`, `0.8`, `1.0`) is modelled with exact
  rationals `ℚ`; the thresholds are the exact decimal values the source
  writes.
* `Optional[str]` is `Option String`; Python truthiness `s or d` maps both
  `None` and `""` to the default `d`.
* Python `sorted(..., key, reverse=True)` is a stable descending sort; it is
  modelled with `List.insertionSort` under the relation "key of the left
  argument is ≥ key of the right argument", which is the same stable
  descending order.
* Python `dict` built by insertion (`defaultdict(int)` in the source) is an
  insertion-ordered association list `List (String × Int)` with unique keys;
  `dict.get(k, 0)` is `lookupAmount`.
* `datetime.strptime(t.date, "%Y-%m-%d")` followed by comparison,
  subtraction (`.days`) and `strftime("%Y-%m-%d")` is modelled by parsing to
  a proleptic-Gregorian day ordinal (`dateOrdinal`), comparing/subtracting
  ordinals, and formatting back (`formatDate`).
-/

/-- `Transaction` dataclass from `src/actual_client.py`. -/
structure Transaction where
  id : String
  date : String
  amount : Int
  payee : String
  category : Option String
  account : String
  notes : Option String
  is_transfer : Bool
deriving DecidableEq, Repr

/-- The display-shaped transaction dict built inside `calculate_weekly_stats`
(keys `date`, `payee`, `amount` (dollars, float), `category`, `notes`);
used for `simplified_transactions`, `large_transactions` and the top lists. -/
structure SimplifiedTxn where
  date : String
  payee : String
  amount : ℚ
  category : String
  notes : Option String
deriving DecidableEq, Repr

/-- `WeeklyStats` dataclass from `src/analyzer.py` (same field order). -/
structure WeeklyStats where
  week_start : String
  week_end : String
  total_income : Int
  total_expense : Int
  net_change : Int
  category_breakdown : List (String × Int)
  top_expenses : List (String × Int)
  top_transactions : List SimplifiedTxn
  top_income_transactions : List SimplifiedTxn
  uncategorized_count : Int
  large_transactions : List SimplifiedTxn
  simplified_transactions : List SimplifiedTxn
  daily_average : Int
deriving DecidableEq, Repr

/-- Structured payload of an anomaly's `data` dict: `{"count": n}` for
uncategorized clusters, the transaction dict for large transactions,
`{"ratio", "current", "previous"}` for spikes/drops, and
`{"category", "current", "previous"}` for category spikes. -/
inductive AnomalyData where
  | count (n : Int)
  | txn (t : SimplifiedTxn)
  | comp (ratio : ℚ) (current previous : Int)
  | catSpike (category : String) (current previous : Int)
deriving DecidableEq, Repr

/-- `Anomaly` dataclass from `src/analyzer.py`.  The human-readable
`description` string is a presentation-only rendering of `data` (an f-string
over the same numbers) and is not modelled. -/
structure Anomaly where
  type : String
  severity : String
  data : AnomalyData
deriving DecidableEq, Repr

/-- Threshold `SPIKE_THRESHOLD = 0.30` of `FinanceAnalyzer`. -/
def SPIKE_THRESHOLD : ℚ := 3 / 10

/-- Threshold `DROP_THRESHOLD = -0.30` of `FinanceAnalyzer`. -/
def DROP_THRESHOLD : ℚ := -(3 / 10)

/-- Threshold `LARGE_TRANSACTION_THRESHOLD = 10000` cents of `FinanceAnalyzer`. -/
def LARGE_TRANSACTION_THRESHOLD : Int := 10000

/-- Threshold `UNCATEGORIZED_THRESHOLD = 5` of `FinanceAnalyzer`. -/
def UNCATEGORIZED_THRESHOLD : Int := 5

/-- Python `pat in s` (substring containment) on character lists. -/
def containsSub (pat : List Char) : List Char → Bool
  | [] => pat.isEmpty
  | c :: t => pat.isPrefixOf (c :: t) || containsSub pat t

/-- Python `pat in s` on strings. -/
def strContains (pat s : String) : Bool :=
  containsSub pat.toList s.toList

/-- Python `s.lower()` (ASCII-relevant part, which is all the "transfer"
check can observe); the character-list map equals core `String.toLower`,
written structurally. -/
def strLower (s : String) : String :=
  String.mk (s.data.map Char.toLower)

/-- Python `c or d` for an optional string `c`: `None` and `""` are falsy. -/
def pyOr (c : Option String) (d : String) : String :=
  match c with
  | none => d
  | some s => if s = "" then d else s

/-- Python truthiness test `not c` for an optional string. -/
def isFalsy (c : Option String) : Bool :=
  match c with
  | none => true
  | some s => s = ""

/-- The filtering predicate of `calculate_weekly_stats` (lines 57-74): a
transaction is kept unless its transfer flag is set or its payee/category
text contains the substring "transfer" case-insensitively.  The source also
computes `notes_lower` but deliberately leaves it unused ("Let's be
conservative and just check Payee/Category for now"). -/
def isValidTxn (t : Transaction) : Bool :=
  if t.is_transfer then false
  else
    let payee_lower := strLower (pyOr (some t.payee) "")
    let category_lower := strLower (pyOr t.category "")
    !(strContains "transfer" payee_lower || strContains "transfer" category_lower)

/-- `valid_txns`: the survivors of the filtering rule. -/
def filterValid (transactions : List Transaction) : List Transaction :=
  transactions.filter isValidTxn

/-- Numeric value of a digit string (the integer fields extracted by
`strptime`). -/
def digitsVal (l : List Char) : Int :=
  l.foldl (fun a c => a * 10 + ((c.toNat : Int) - 48)) 0

/-- Split a character list on `'-'` (field separation of `"%Y-%m-%d"`). -/
def splitDash : List Char → List (List Char)
  | [] => [[]]
  | c :: t =>
    if c = '-' then [] :: splitDash t
    else
      match splitDash t with
      | [] => [[c]]
      | p :: ps => (c :: p) :: ps

/-- Day ordinal of a civil date (proleptic Gregorian), the standard
days-from-civil computation; models `datetime.toordinal` up to a constant
shift, which is all the source uses (ordering and differences). -/
def daysFromCivil (y m d : Int) : Int :=
  let y' := if m ≤ 2 then y - 1 else y
  let era := (if 0 ≤ y' then y' else y' - 399) / 400
  let yoe := y' - era * 400
  let mp := (m + 9) % 12
  let doy := (153 * mp + 2) / 5 + d - 1
  let doe := yoe * 365 + yoe / 4 - yoe / 100 + doy
  era * 146097 + doe - 719468

/-- `datetime.strptime(s, "%Y-%m-%d")`, reduced to the day ordinal (the only
datetime content the source consumes). -/
def dateOrdinal (s : String) : Int :=
  match splitDash s.toList with
  | [y, m, d] => daysFromCivil (digitsVal y) (digitsVal m) (digitsVal d)
  | _ => 0

/-- Inverse of `daysFromCivil`: civil date of a day ordinal. -/
def civilFromDays (z : Int) : Int × Int × Int :=
  let z' := z + 719468
  let era := (if 0 ≤ z' then z' else z' - 146096) / 146097
  let doe := z' - era * 146097
  let yoe := (doe - doe / 1460 + doe / 36524 - doe / 146096) / 365
  let y := yoe + era * 400
  let doy := doe - (365 * yoe + yoe / 4 - yoe / 100)
  let mp := (5 * doy + 2) / 153
  let d := doy - (153 * mp + 2) / 5 + 1
  let m := mp + (if mp < 10 then 3 else -9)
  (if m ≤ 2 then y + 1 else y, m, d)

/-- Zero-pad a number to two digits (`%m`, `%d`). -/
def pad2 (n : Int) : String :=
  if n < 10 then "0" ++ toString n else toString n

/-- Zero-pad a number to four digits (`%Y`). -/
def pad4 (n : Int) : String :=
  if n < 10 then "000" ++ toString n
  else if n < 100 then "00" ++ toString n
  else if n < 1000 then "0" ++ toString n
  else toString n

/-- `strftime("%Y-%m-%d")` of the date with the given day ordinal. -/
def formatDate (z : Int) : String :=
  match civilFromDays z with
  | (y, m, d) => pad4 y ++ "-" ++ pad2 m ++ "-" ++ pad2 d

/-- Python `min` over a list of ordinals; the source only calls it on the
nonempty `dates` list, the `[]` default is unreachable. -/
def pyMinList : List Int → Int
  | [] => 0
  | h :: t => t.foldl min h

/-- Python `max` over a list of ordinals (nonempty in the source). -/
def pyMaxList : List Int → Int
  | [] => 0
  | h :: t => t.foldl max h

/-- The zero-valued statistics record returned when no transaction survives
filtering (lines 76-92). -/
def emptyStats : WeeklyStats :=
  ⟨"", "", 0, 0, 0, [], [], [], [], 0, [], [], 0⟩

/-- The projection appended to `simplified_transactions` (lines 121-127):
amount converted to dollars, category defaulted to `"未分类"`. -/
def simplify (t : Transaction) : SimplifiedTxn :=
  ⟨t.date, t.payee, (t.amount : ℚ) / 100, pyOr t.category "未分类", t.notes⟩

/-- The dict appended to `large_transactions` (lines 141-147): like
`simplify` but with the absolute amount. -/
def bigTxn (t : Transaction) : SimplifiedTxn :=
  ⟨t.date, t.payee, (|t.amount| : ℚ) / 100, pyOr t.category "未分类", t.notes⟩

/-- `not t.category or t.category == "Uncategorized"` (line 113). -/
def isUncatLabel (c : Option String) : Bool :=
  isFalsy c || c == some "Uncategorized"

/-- The `cat_name` chosen for an expense transaction (lines 113-117). -/
def catName (t : Transaction) : String :=
  if isUncatLabel t.category then "未分类" else pyOr t.category "未分类"

/-- `category_totals[cat] += v` on a `defaultdict(int)` viewed as an
insertion-ordered association list: update the existing entry, else append. -/
def addAmount (m : List (String × Int)) (k : String) (v : Int) : List (String × Int) :=
  match m with
  | [] => [(k, v)]
  | (k', v') :: t => if k' = k then (k, v' + v) :: t else (k', v') :: addAmount t k v

/-- `d.get(k, 0)` on the association-list view of a dict. -/
def lookupAmount (m : List (String × Int)) (k : String) : Int :=
  match m with
  | [] => 0
  | (k', v) :: t => if k' = k then v else lookupAmount t k

/-- Descending-by-absolute-amount order used by the top-transaction sorts
(`key=lambda x: abs(x['amount']), reverse=True`): `a` precedes `b` when
`|b.amount| ≤ |a.amount|`.  A stable sort under this relation is exactly
Python's stable descending sort by `abs(amount)`. -/
def amtGe (a b : SimplifiedTxn) : Prop := |b.amount| ≤ |a.amount|

instance : DecidableRel amtGe := fun _ _ => inferInstanceAs (Decidable (_ ≤ _))

instance : IsTotal SimplifiedTxn amtGe := ⟨fun _ _ => le_total _ _⟩

instance : IsTrans SimplifiedTxn amtGe := ⟨fun _ _ _ h1 h2 => le_trans h2 h1⟩

/-- Descending-by-value order for `sorted(category_totals.items(),
key=lambda x: x[1], reverse=True)`. -/
def valGe (a b : String × Int) : Prop := b.2 ≤ a.2

instance : DecidableRel valGe := fun _ _ => inferInstanceAs (Decidable (_ ≤ _))

instance : IsTotal (String × Int) valGe := ⟨fun _ _ => le_total _ _⟩

instance : IsTrans (String × Int) valGe := ⟨fun _ _ _ h1 h2 => le_trans h2 h1⟩

/-! The single `for t in valid_txns:` loop of the source (lines 111-127)
carries three independent accumulators (`category_totals`,
`uncategorized_count`, `simplified_transactions`); each is rendered as its
own definition over the same `valid_txns` list, in loop order. -/

/-- `total_income = sum(t.amount for t in valid_txns if t.amount > 0)` (line 100). -/
def totalIncomeOf (valid : List Transaction) : Int :=
  ((valid.filter fun t => decide (0 < t.amount)).map Transaction.amount).sum

/-- `total_expense = abs(sum(t.amount for t in valid_txns if t.amount < 0))` (line 101). -/
def totalExpenseOf (valid : List Transaction) : Int :=
  |((valid.filter fun t => decide (t.amount < 0)).map Transaction.amount).sum|

/-- The `category_totals` defaultdict after the loop. -/
def categoryTotalsOf (valid : List Transaction) : List (String × Int) :=
  (valid.filter fun t => decide (t.amount < 0)).foldl
    (fun m t => addAmount m (catName t) |t.amount|) []

/-- The `uncategorized_count` accumulator after the loop. -/
def uncategorizedCountOf (valid : List Transaction) : Int :=
  ((valid.filter fun t => decide (t.amount < 0) && isUncatLabel t.category).length : Int)

/-- The `simplified_transactions` list after the loop. -/
def simplifiedOf (valid : List Transaction) : List SimplifiedTxn :=
  valid.map simplify

/-- `top_expenses = sorted_categories[:5]` (lines 130-135). -/
def topExpensesOf (valid : List Transaction) : List (String × Int) :=
  (List.insertionSort valGe (categoryTotalsOf valid)).take 5

/-- `large_transactions` (lines 138-147): every valid transaction with
`abs(amount) >= LARGE_TRANSACTION_THRESHOLD`, in input order. -/
def largeOf (valid : List Transaction) : List SimplifiedTxn :=
  (valid.filter fun t => decide (LARGE_TRANSACTION_THRESHOLD ≤ |t.amount|)).map bigTxn

/-- The `dates` list (line 95), as day ordinals. -/
def datesOf (valid : List Transaction) : List Int :=
  valid.map fun t => dateOrdinal t.date

/-- `days_count = (max(dates) - min(dates)).days + 1` (line 150). -/
def daysCountOf (valid : List Transaction) : Int :=
  pyMaxList (datesOf valid) - pyMinList (datesOf valid) + 1

/-- `daily_average = total_expense // max(days_count, 1)` (line 151);
Python `//` is flooring division, `Int.fdiv`. -/
def dailyAverageOf (valid : List Transaction) : Int :=
  Int.fdiv (totalExpenseOf valid) (max (daysCountOf valid) 1)

/-- `all_expenses` (lines 154-158): the simplified expense transactions
sorted descending by absolute (dollar) amount. -/
def allExpensesOf (valid : List Transaction) : List SimplifiedTxn :=
  List.insertionSort amtGe ((simplifiedOf valid).filter fun x => decide (x.amount < 0))

/-- `top_transactions` (lines 163-166): all expenses above $20 absolute, or
the unconditional top 5 when fewer than 5 qualify. -/
def topTransactionsOf (valid : List Transaction) : List SimplifiedTxn :=
  let q := (allExpensesOf valid).filter fun x => decide ((20 : ℚ) < |x.amount|)
  if q.length < 5 then (allExpensesOf valid).take 5 else q

/-- `top_income_transactions` (lines 169-173). -/
def topIncomeOf (valid : List Transaction) : List SimplifiedTxn :=
  (List.insertionSort amtGe ((simplifiedOf valid).filter fun x => decide (0 < x.amount))).take 5

/-- `FinanceAnalyzer.calculate_weekly_stats` (lines 51-190). -/
def calculate_weekly_stats (transactions : List Transaction) : WeeklyStats :=
  let valid_txns := filterValid transactions
  if valid_txns = [] then emptyStats
  else
    { week_start := formatDate (pyMinList (datesOf valid_txns))
      week_end := formatDate (pyMaxList (datesOf valid_txns))
      total_income := totalIncomeOf valid_txns
      total_expense := totalExpenseOf valid_txns
      net_change := totalIncomeOf valid_txns - totalExpenseOf valid_txns
      category_breakdown := categoryTotalsOf valid_txns
      top_expenses := topExpensesOf valid_txns
      top_transactions := topTransactionsOf valid_txns
      top_income_transactions := topIncomeOf valid_txns
      uncategorized_count := uncategorizedCountOf valid_txns
      large_transactions := largeOf valid_txns
      simplified_transactions := simplifiedOf valid_txns
      daily_average := dailyAverageOf valid_txns }

/-- Rule 1 anomalies (lines 201-207): uncategorized cluster. -/
def uncatAnoms (current_stats : WeeklyStats) : List Anomaly :=
  if UNCATEGORIZED_THRESHOLD < current_stats.uncategorized_count then
    [⟨"uncategorized_cluster", "medium", .count current_stats.uncategorized_count⟩]
  else []

/-- Rule 2 anomalies (lines 210-216): one per large transaction. -/
def largeAnoms (current_stats : WeeklyStats) : List Anomaly :=
  current_stats.large_transactions.map fun txn => ⟨"large_transaction", "low", .txn txn⟩

/-- Rule 3 anomalies (lines 221-247): aggregate spend spike/drop versus the
previous period. -/
def spikeAnoms (current_stats previous_stats : WeeklyStats) : List Anomaly :=
  if 0 < previous_stats.total_expense then
    let change_ratio : ℚ :=
      ((current_stats.total_expense - previous_stats.total_expense : Int) : ℚ) /
        (previous_stats.total_expense : ℚ)
    if SPIKE_THRESHOLD < change_ratio then
      [⟨"spike", "high",
        .comp change_ratio current_stats.total_expense previous_stats.total_expense⟩]
    else if change_ratio < DROP_THRESHOLD then
      [⟨"drop", "low",
        .comp change_ratio current_stats.total_expense previous_stats.total_expense⟩]
    else []
  else []

/-- Rule 4 anomalies (lines 250-262): category-level spikes, one per entry
of the current breakdown passing the guard, in breakdown order. -/
def catSpikeAnoms (current_stats previous_stats : WeeklyStats) : List Anomaly :=
  (current_stats.category_breakdown.filter fun p =>
      decide (0 < lookupAmount previous_stats.category_breakdown p.1) &&
      decide ((lookupAmount previous_stats.category_breakdown p.1 : ℚ) * (1 + SPIKE_THRESHOLD)
        < (p.2 : ℚ))).map
    fun p =>
      ⟨"category_spike", "medium",
        .catSpike p.1 p.2 (lookupAmount previous_stats.category_breakdown p.1)⟩

/-- `FinanceAnalyzer.detect_anomalies` (lines 192-264); a dataclass instance
is always truthy, so `if previous_stats:` is exactly the `Option` match. -/
def detect_anomalies (current_stats : WeeklyStats)
    (previous_stats : Option WeeklyStats) : List Anomaly :=
  uncatAnoms current_stats ++ largeAnoms current_stats ++
    match previous_stats with
    | none => []
    | some prev => spikeAnoms current_stats prev ++ catSpikeAnoms current_stats prev

/-- A value of the budget-health result dict: string- or number-valued. -/
inductive FieldVal where
  | str (v : String)
  | int (v : Int)
  | rat (v : ℚ)
deriving DecidableEq, Repr

/-- Key lookup in the budget-health result dict. -/
def getField (r : List (String × FieldVal)) (k : String) : Option FieldVal :=
  match r with
  | [] => none
  | (k', v) :: t => if k' = k then some v else getField t k

/-- The record returned when no budget is configured (line 273). -/
def budgetUnknown : List (String × FieldVal) :=
  [("status", .str "unknown"), ("message", .str "未设置月度预算")]

/-- `total_budget = sum(monthly_budget.values())` (line 275). -/
def budgetTotalOf (b : List (String × Int)) : Int :=
  (b.map Prod.snd).sum

/-- `projected_monthly = spent_so_far * 4` (lines 276-278). -/
def projectedMonthlyOf (current_stats : WeeklyStats) : Int :=
  current_stats.total_expense * 4

/-- `health_ratio = projected_monthly / total_budget if total_budget > 0
else 0` (line 281). -/
def healthRatioOf (current_stats : WeeklyStats) (b : List (String × Int)) : ℚ :=
  if 0 < budgetTotalOf b
  then (projectedMonthlyOf current_stats : ℚ) / (budgetTotalOf b : ℚ)
  else 0

/-- The `status` string chosen by the threshold cascade (lines 283-291). -/
def healthStatusOf (current_stats : WeeklyStats) (b : List (String × Int)) : String :=
  if healthRatioOf current_stats b < 8 / 10 then "healthy"
  else if healthRatioOf current_stats b < 1 then "warning"
  else "critical"

/-- The `message` string chosen by the same cascade (lines 283-291). -/
def healthMessageOf (current_stats : WeeklyStats) (b : List (String × Int)) : String :=
  if healthRatioOf current_stats b < 8 / 10 then "预算进度正常"
  else if healthRatioOf current_stats b < 1 then "预算进度偏快，注意控制"
  else "预计超支，建议立即调整"

/-- `FinanceAnalyzer.calculate_budget_health` (lines 266-300); `if not
monthly_budget:` is true for both `None` and an empty dict. -/
def calculate_budget_health (current_stats : WeeklyStats)
    (monthly_budget : Option (List (String × Int))) : List (String × FieldVal) :=
  match monthly_budget with
  | none => budgetUnknown
  | some b =>
    if b = [] then budgetUnknown
    else
      [("status", .str (healthStatusOf current_stats b)),
       ("message", .str (healthMessageOf current_stats b)),
       ("projected_monthly", .int (projectedMonthlyOf current_stats)),
       ("total_budget", .int (budgetTotalOf b)),
       ("remaining", .int (budgetTotalOf b - projectedMonthlyOf current_stats)),
       ("health_ratio", .rat (healthRatioOf current_stats b))]

/-- "The invocation emits an anomaly of type `ty`": some member of the
returned list has that `type`. -/
def emitsType (l : List Anomaly) (ty : String) : Prop :=
  ∃ a ∈ l, a.type = ty

/-- "The invocation emits a category-spike anomaly for category `c`". -/
def emitsCatSpike (l : List Anomaly) (c : String) : Prop :=
  ∃ a ∈ l, a.type = "category_spike" ∧ ∃ ca pa, a.data = AnomalyData.catSpike c ca pa

/-! ### Concrete fixtures used by witnesses and counterexamples -/

/-- An ordinary categorized expense. -/
def exA : Transaction := ⟨"a", "2025-01-06", -1500, "Coffee Shop", some "Dining", "acc", none, false⟩

/-- A second, larger categorized expense. -/
def exB : Transaction := ⟨"b", "2025-01-07", -25000, "Landlord", some "Rent", "acc", some "jan rent", false⟩

/-- An income transaction. -/
def exC : Transaction := ⟨"c", "2025-01-08", 300000, "Employer", some "Income", "acc", none, false⟩

/-- A valid expense whose notes (only) mention "transfer". -/
def exN : Transaction := ⟨"n", "2025-01-09", -4000, "Shop", none, "acc", some "transfer in notes", false⟩

/-- Excluded by the payee substring rule. -/
def exXfer : Transaction := ⟨"x", "2025-01-09", -5000, "Bank Transfer", some "Misc", "acc", none, false⟩

/-- Excluded by the transfer flag. -/
def exFlag : Transaction := ⟨"f", "2025-01-10", -7000, "Funds move", some "Misc", "acc", none, true⟩

/-- Five further expenses (for the top-transaction fixtures). -/
def exE1 : Transaction := ⟨"e1", "2025-01-06", -2100, "S1", some "Misc", "acc", none, false⟩

/-- Second extra expense fixture. -/
def exE2 : Transaction := ⟨"e2", "2025-01-07", -2200, "S2", some "Misc", "acc", none, false⟩

/-- Third extra expense fixture. -/
def exE3 : Transaction := ⟨"e3", "2025-01-08", -2300, "S3", some "Misc", "acc", none, false⟩

/-- Fourth extra expense fixture. -/
def exE4 : Transaction := ⟨"e4", "2025-01-09", -2400, "S4", some "Misc", "acc", none, false⟩

/-- Fifth extra expense fixture. -/
def exE5 : Transaction := ⟨"e5", "2025-01-10", -2500, "S5", some "Misc", "acc", none, false⟩

/-- A current-week statistics fixture for the anomaly/budget claims. -/
def exCur : WeeklyStats :=
  { emptyStats with total_expense := 14000, category_breakdown := [("Dining", 5000), ("Rent", 9000)] }

/-- A previous-week statistics fixture. -/
def exPrev : WeeklyStats :=
  { emptyStats with total_expense := 10000, category_breakdown := [("Dining", 2000), ("Rent", 8000)] }

/-! ### Generic helper lemmas -/

theorem foldl_min_le_init (l : List Int) (a : Int) : l.foldl min a ≤ a := by
  induction l generalizing a with
  | nil => exact le_refl a
  | cons h t ih => exact le_trans (ih (min a h)) (min_le_left a h)

theorem foldl_min_le_of_mem {x : Int} {l : List Int} (a : Int) (hx : x ∈ l) :
    l.foldl min a ≤ x := by
  induction l generalizing a with
  | nil => cases hx
  | cons h t ih =>
    rcases List.mem_cons.mp hx with rfl | hx'
    · exact le_trans (foldl_min_le_init t (min a x)) (min_le_right a x)
    · exact ih (min a h) hx'

theorem foldl_min_choice (l : List Int) (a : Int) : l.foldl min a = a ∨ l.foldl min a ∈ l := by
  induction l generalizing a with
  | nil => exact Or.inl rfl
  | cons h t ih =>
    rcases ih (min a h) with heq | hmem
    · rcases min_choice a h with h1 | h1
      · exact Or.inl (by rw [List.foldl_cons, heq, h1])
      · exact Or.inr (by rw [List.foldl_cons, heq, h1]; exact List.mem_cons_self h t)
    · exact Or.inr (List.mem_cons_of_mem h hmem)

theorem le_foldl_max (l : List Int) (a : Int) : a ≤ l.foldl max a := by
  induction l generalizing a with
  | nil => exact le_refl a
  | cons h t ih => exact le_trans (le_max_left a h) (ih (max a h))

theorem le_foldl_max_of_mem {x : Int} {l : List Int} (a : Int) (hx : x ∈ l) :
    x ≤ l.foldl max a := by
  induction l generalizing a with
  | nil => cases hx
  | cons h t ih =>
    rcases List.mem_cons.mp hx with rfl | hx'
    · exact le_trans (le_max_right a x) (le_foldl_max t (max a x))
    · exact ih (max a h) hx'

theorem foldl_max_choice (l : List Int) (a : Int) : l.foldl max a = a ∨ l.foldl max a ∈ l := by
  induction l generalizing a with
  | nil => exact Or.inl rfl
  | cons h t ih =>
    rcases ih (max a h) with heq | hmem
    · rcases max_choice a h with h1 | h1
      · exact Or.inl (by rw [List.foldl_cons, heq, h1])
      · exact Or.inr (by rw [List.foldl_cons, heq, h1]; exact List.mem_cons_self h t)
    · exact Or.inr (List.mem_cons_of_mem h hmem)

theorem pyMinList_le {l : List Int} {x : Int} (hx : x ∈ l) : pyMinList l ≤ x := by
  cases l with
  | nil => cases hx
  | cons h t =>
    rcases List.mem_cons.mp hx with rfl | hx'
    · exact foldl_min_le_init t x
    · exact foldl_min_le_of_mem h hx'

theorem pyMinList_mem {l : List Int} (h : l ≠ []) : pyMinList l ∈ l := by
  cases l with
  | nil => exact absurd rfl h
  | cons a t =>
    show t.foldl min a ∈ a :: t
    rcases foldl_min_choice t a with heq | hmem
    · rw [heq]; exact List.mem_cons_self a t
    · exact List.mem_cons_of_mem a hmem

theorem pyMaxList_ge {l : List Int} {x : Int} (hx : x ∈ l) : x ≤ pyMaxList l := by
  cases l with
  | nil => cases hx
  | cons h t =>
    rcases List.mem_cons.mp hx with rfl | hx'
    · exact le_foldl_max t x
    · exact le_foldl_max_of_mem h hx'

theorem pyMaxList_mem {l : List Int} (h : l ≠ []) : pyMaxList l ∈ l := by
  cases l with
  | nil => exact absurd rfl h
  | cons a t =>
    show t.foldl max a ∈ a :: t
    rcases foldl_max_choice t a with heq | hmem
    · rw [heq]; exact List.mem_cons_self a t
    · exact List.mem_cons_of_mem a hmem

theorem pyMinList_le_pyMaxList {l : List Int} (h : l ≠ []) : pyMinList l ≤ pyMaxList l :=
  pyMinList_le (pyMaxList_mem h)

theorem pyMinList_perm {l1 l2 : List Int} (hp : l1.Perm l2) (h1 : l1 ≠ []) :
    pyMinList l1 = pyMinList l2 := by
  have h2 : l2 ≠ [] := by
    intro he
    exact h1 (List.Perm.eq_nil (he ▸ hp))
  exact le_antisymm (pyMinList_le (hp.mem_iff.mpr (pyMinList_mem h2)))
    (pyMinList_le (hp.symm.mem_iff.mpr (pyMinList_mem h1)))

theorem pyMaxList_perm {l1 l2 : List Int} (hp : l1.Perm l2) (h1 : l1 ≠ []) :
    pyMaxList l1 = pyMaxList l2 := by
  have h2 : l2 ≠ [] := by
    intro he
    exact h1 (List.Perm.eq_nil (he ▸ hp))
  exact le_antisymm (pyMaxList_ge (hp.mem_iff.mp (pyMaxList_mem h1)))
    (pyMaxList_ge (hp.mem_iff.mpr (pyMaxList_mem h2)))

theorem sum_nonpos_of_all_neg {l : List Int} (h : ∀ x ∈ l, x < 0) : l.sum ≤ 0 := by
  induction l with
  | nil => exact le_refl 0
  | cons a t ih =>
    rw [List.sum_cons]
    exact add_nonpos (le_of_lt (h a (List.mem_cons_self a t)))
      (ih fun x hx => h x (List.mem_cons_of_mem a hx))

theorem abs_sum_of_all_neg {l : List Int} (h : ∀ x ∈ l, x < 0) :
    |l.sum| = (l.map fun x => |x|).sum := by
  induction l with
  | nil => simp
  | cons a t ih =>
    have ha := h a (List.mem_cons_self a t)
    have ht : ∀ x ∈ t, x < 0 := fun x hx => h x (List.mem_cons_of_mem a hx)
    have hts : t.sum ≤ 0 := sum_nonpos_of_all_neg ht
    rw [List.map_cons, List.sum_cons, List.sum_cons, ← ih ht,
      abs_of_nonpos (add_nonpos (le_of_lt ha) hts), abs_of_nonpos hts,
      abs_of_nonpos (le_of_lt ha)]
    ring

theorem sumValues_addAmount (m : List (String × Int)) (k : String) (v : Int) :
    ((addAmount m k v).map Prod.snd).sum = (m.map Prod.snd).sum + v := by
  induction m with
  | nil => simp [addAmount]
  | cons p t ih =>
    obtain ⟨k', v'⟩ := p
    by_cases hk : k' = k
    · simp only [addAmount, if_pos hk, List.map_cons, List.sum_cons]
      ring
    · simp only [addAmount, if_neg hk, List.map_cons, List.sum_cons, ih]
      ring

theorem lookupAmount_addAmount (m : List (String × Int)) (k : String) (v : Int) (k' : String) :
    lookupAmount (addAmount m k v) k' = lookupAmount m k' + if k = k' then v else 0 := by
  induction m with
  | nil =>
    by_cases h : k = k' <;> simp [addAmount, lookupAmount, h]
  | cons p t ih =>
    obtain ⟨k₀, v₀⟩ := p
    by_cases h0 : k₀ = k
    · subst h0
      by_cases h1 : k₀ = k'
      · simp [addAmount, lookupAmount, h1]
      · simp [addAmount, lookupAmount, h1]
    · by_cases h1 : k₀ = k'
      · subst h1
        simp [addAmount, lookupAmount, h0, Ne.symm h0]
      · simp [addAmount, lookupAmount, h0, h1, ih]

theorem lookupAmount_of_not_mem {m : List (String × Int)} {k : String}
    (h : ∀ p ∈ m, p.1 ≠ k) : lookupAmount m k = 0 := by
  induction m with
  | nil => rfl
  | cons p t ih =>
    obtain ⟨k', v'⟩ := p
    have hk : k' ≠ k := h (k', v') (List.mem_cons_self _ t)
    simp only [lookupAmount, if_neg hk]
    exact ih fun q hq => h q (List.mem_cons_of_mem _ hq)

theorem sumValues_catFold (l : List Transaction) (m : List (String × Int)) :
    (((l.foldl (fun m t => addAmount m (catName t) |t.amount|) m)).map Prod.snd).sum
      = (m.map Prod.snd).sum + (l.map fun t => |t.amount|).sum := by
  induction l generalizing m with
  | nil => simp
  | cons a t ih =>
    rw [List.foldl_cons, ih, sumValues_addAmount, List.map_cons, List.sum_cons]
    ring

theorem lookupAmount_catFold (l : List Transaction) (m : List (String × Int)) (k : String) :
    lookupAmount (l.foldl (fun m t => addAmount m (catName t) |t.amount|) m) k
      = lookupAmount m k + (l.map fun t => if catName t = k then |t.amount| else 0).sum := by
  induction l generalizing m with
  | nil => simp
  | cons a t ih =>
    rw [List.foldl_cons, ih, lookupAmount_addAmount, List.map_cons, List.sum_cons]
    ring

/-! ### Unfolding lemmas for `calculate_weekly_stats` -/

theorem calculate_weekly_stats_nil {l : List Transaction} (h : filterValid l = []) :
    calculate_weekly_stats l = emptyStats := by
  simp [calculate_weekly_stats, h]

theorem calculate_weekly_stats_of_ne {l : List Transaction} (h : ¬ filterValid l = []) :
    calculate_weekly_stats l =
      { week_start := formatDate (pyMinList (datesOf (filterValid l)))
        week_end := formatDate (pyMaxList (datesOf (filterValid l)))
        total_income := totalIncomeOf (filterValid l)
        total_expense := totalExpenseOf (filterValid l)
        net_change := totalIncomeOf (filterValid l) - totalExpenseOf (filterValid l)
        category_breakdown := categoryTotalsOf (filterValid l)
        top_expenses := topExpensesOf (filterValid l)
        top_transactions := topTransactionsOf (filterValid l)
        top_income_transactions := topIncomeOf (filterValid l)
        uncategorized_count := uncategorizedCountOf (filterValid l)
        large_transactions := largeOf (filterValid l)
        simplified_transactions := simplifiedOf (filterValid l)
        daily_average := dailyAverageOf (filterValid l) } := by
  simp [calculate_weekly_stats, h]

theorem calculate_weekly_stats_congr {l l' : List Transaction}
    (h : filterValid l = filterValid l') :
    calculate_weekly_stats l = calculate_weekly_stats l' := by
  unfold calculate_weekly_stats
  rw [h]

/-! ### Field characterizations -/

theorem totalExpenseOf_eq_sum_abs (valid : List Transaction) :
    totalExpenseOf valid
      = ((valid.filter fun t => decide (t.amount < 0)).map fun t => |t.amount|).sum := by
  unfold totalExpenseOf
  have hneg : ∀ x ∈ (valid.filter fun t => decide (t.amount < 0)).map Transaction.amount, x < 0 := by
    intro x hx
    obtain ⟨t, htm, rfl⟩ := List.mem_map.mp hx
    exact of_decide_eq_true (List.mem_filter.mp htm).2
  rw [abs_sum_of_all_neg hneg, List.map_map]
  rfl

theorem sumValues_categoryTotalsOf (valid : List Transaction) :
    ((categoryTotalsOf valid).map Prod.snd).sum
      = ((valid.filter fun t => decide (t.amount < 0)).map fun t => |t.amount|).sum := by
  unfold categoryTotalsOf
  rw [sumValues_catFold]
  simp

theorem totalIncomeOf_nonneg (valid : List Transaction) : 0 ≤ totalIncomeOf valid := by
  unfold totalIncomeOf
  apply List.sum_nonneg
  intro x hx
  obtain ⟨t, htm, rfl⟩ := List.mem_map.mp hx
  exact le_of_lt (of_decide_eq_true (List.mem_filter.mp htm).2)

theorem totalExpenseOf_nonneg (valid : List Transaction) : 0 ≤ totalExpenseOf valid :=
  abs_nonneg _

/-- The drop condition of the filtering rule, phrased on the transaction's
fields exactly as the source tests them. -/
theorem isValidTxn_eq_false (t : Transaction) :
    isValidTxn t = false ↔
      (t.is_transfer = true ∨ strContains "transfer" (strLower t.payee) = true ∨
        strContains "transfer" (strLower (pyOr t.category "")) = true) := by
  have hp : pyOr (some t.payee) "" = t.payee := by
    by_cases h : t.payee = "" <;> simp [pyOr, h]
  cases ht : t.is_transfer
  · cases hc1 : strContains "transfer" (strLower t.payee) <;>
      cases hc2 : strContains "transfer" (strLower (pyOr t.category "")) <;>
        simp [isValidTxn, ht, hp, hc1, hc2]
  · simp [isValidTxn, ht]

/-! ### Claim theorems -/

/-- C1: `calculate_weekly_stats` drops, before any aggregation, every
transaction whose transfer flag is set or whose payee/category contains
"transfer" case-insensitively — inserting such a transaction anywhere in the
input changes no computed statistic — and transfer-related content appearing
only in the notes field does not cause exclusion (the filter predicate is
invariant under changing `notes`). -/
theorem C1_transfer_filtering :
    (∀ (l₁ l₂ : List Transaction) (t : Transaction),
        t.is_transfer = true ∨ strContains "transfer" (strLower t.payee) = true ∨
          strContains "transfer" (strLower (pyOr t.category "")) = true →
        calculate_weekly_stats (l₁ ++ t :: l₂) = calculate_weekly_stats (l₁ ++ l₂)) ∧
    (∀ t : Transaction,
        isValidTxn t = false ↔
          (t.is_transfer = true ∨ strContains "transfer" (strLower t.payee) = true ∨
            strContains "transfer" (strLower (pyOr t.category "")) = true)) ∧
    (∀ (t : Transaction) (n : Option String),
        isValidTxn { t with notes := n } = isValidTxn t) := by
  refine ⟨?_, isValidTxn_eq_false, ?_⟩
  · intro l₁ l₂ t ht
    apply calculate_weekly_stats_congr
    have hf : isValidTxn t = false := (isValidTxn_eq_false t).mpr ht
    simp [filterValid, List.filter_append, List.filter_cons, hf]
  · intro t n
    rfl

/-- C1 witness: a transaction whose payee contains "Transfer" satisfies the
drop condition and contributes nothing when inserted between two valid
transactions. -/
theorem C1_transfer_filtering_witness :
    (exXfer.is_transfer = true ∨ strContains "transfer" (strLower exXfer.payee) = true ∨
      strContains "transfer" (strLower (pyOr exXfer.category "")) = true) ∧
    calculate_weekly_stats ([exA] ++ exXfer :: [exB]) = calculate_weekly_stats ([exA] ++ [exB]) :=
  ⟨Or.inr (Or.inl (by decide)),
    C1_transfer_filtering.1 [exA] [exB] exXfer (Or.inr (Or.inl (by decide)))⟩

/-- C5: the category-breakdown values sum to `total_expense`; `total_expense`
is both the absolute value of the sum of the (all-negative) expense amounts
and the sum of their absolute values; `total_income` and `total_expense` are
non-negative. -/
theorem C5_breakdown_sum_eq_expense (l : List Transaction) :
    (((calculate_weekly_stats l).category_breakdown.map Prod.snd).sum
        = (calculate_weekly_stats l).total_expense) ∧
    ((calculate_weekly_stats l).total_expense
        = (((filterValid l).filter fun t => decide (t.amount < 0)).map fun t => |t.amount|).sum) ∧
    0 ≤ (calculate_weekly_stats l).total_income ∧
    0 ≤ (calculate_weekly_stats l).total_expense := by
  by_cases hv : filterValid l = []
  · rw [calculate_weekly_stats_nil hv, hv]
    simp [emptyStats]
  · rw [calculate_weekly_stats_of_ne hv]
    exact ⟨(sumValues_categoryTotalsOf _).trans (totalExpenseOf_eq_sum_abs _).symm,
      totalExpenseOf_eq_sum_abs _, totalIncomeOf_nonneg _, totalExpenseOf_nonneg _⟩

/-- C6: when nothing survives filtering (here: one payee-matched transfer and
one flagged transfer), the returned record has empty date bounds, zero
numeric fields and empty collections, with no error. -/
theorem C6_empty_input_policy (l : List Transaction) (h : filterValid l = []) :
    calculate_weekly_stats l =
      { week_start := "", week_end := "", total_income := 0, total_expense := 0,
        net_change := 0, category_breakdown := [], top_expenses := [],
        top_transactions := [], top_income_transactions := [],
        uncategorized_count := 0, large_transactions := [],
        simplified_transactions := [], daily_average := 0 } :=
  calculate_weekly_stats_nil h

/-- C6 witness: the all-filtered-out input `[exXfer, exFlag]` satisfies the
hypothesis and yields the zero record. -/
theorem C6_empty_input_policy_witness :
    filterValid [exXfer, exFlag] = [] ∧
    calculate_weekly_stats [exXfer, exFlag] =
      { week_start := "", week_end := "", total_income := 0, total_expense := 0,
        net_change := 0, category_breakdown := [], top_expenses := [],
        top_transactions := [], top_income_transactions := [],
        uncategorized_count := 0, large_transactions := [],
        simplified_transactions := [], daily_average := 0 } :=
  ⟨by decide, C6_empty_input_policy [exXfer, exFlag] (by decide)⟩

/-! ### Anomaly segment lemmas -/

theorem emitsType_append {l1 l2 : List Anomaly} {ty : String} :
    emitsType (l1 ++ l2) ty ↔ emitsType l1 ty ∨ emitsType l2 ty := by
  simp [emitsType, List.mem_append, or_and_right, exists_or]

theorem not_emitsType_of_types {l : List Anomaly} {ty : String}
    (h : ∀ a ∈ l, a.type ≠ ty) : ¬ emitsType l ty :=
  fun ⟨a, ha, he⟩ => h a ha he

theorem ne_of_type_eq {a : Anomaly} {s ty : String} (h : a.type = s) (hne : s ≠ ty) :
    a.type ≠ ty := by
  rw [h]; exact hne

theorem uncatAnoms_type {cur : WeeklyStats} :
    ∀ a ∈ uncatAnoms cur, a.type = "uncategorized_cluster" := by
  intro a ha
  unfold uncatAnoms at ha
  split at ha
  · rw [List.mem_singleton] at ha
    subst ha
    rfl
  · cases ha

theorem largeAnoms_type {cur : WeeklyStats} :
    ∀ a ∈ largeAnoms cur, a.type = "large_transaction" := by
  intro a ha
  obtain ⟨t, _, rfl⟩ := List.mem_map.mp ha
  rfl

theorem catSpikeAnoms_type {cur prev : WeeklyStats} :
    ∀ a ∈ catSpikeAnoms cur prev, a.type = "category_spike" := by
  intro a ha
  obtain ⟨p, _, rfl⟩ := List.mem_map.mp ha
  rfl

theorem spikeAnoms_nonpos {cur prev : WeeklyStats} (hp : ¬ 0 < prev.total_expense) :
    spikeAnoms cur prev = [] := by
  simp [spikeAnoms, hp]

theorem spikeAnoms_pos_spike {cur prev : WeeklyStats} (hp : 0 < prev.total_expense)
    (hr : SPIKE_THRESHOLD <
      ((cur.total_expense - prev.total_expense : Int) : ℚ) / (prev.total_expense : ℚ)) :
    spikeAnoms cur prev =
      [⟨"spike", "high",
        .comp (((cur.total_expense - prev.total_expense : Int) : ℚ) / (prev.total_expense : ℚ))
          cur.total_expense prev.total_expense⟩] := by
  have hr' : SPIKE_THRESHOLD <
      ((cur.total_expense : ℚ) - (prev.total_expense : ℚ)) / (prev.total_expense : ℚ) := by
    push_cast at hr
    exact hr
  simp [spikeAnoms, hp, hr']

theorem spikeAnoms_pos_drop {cur prev : WeeklyStats} (hp : 0 < prev.total_expense)
    (hr1 : ¬ SPIKE_THRESHOLD <
      ((cur.total_expense - prev.total_expense : Int) : ℚ) / (prev.total_expense : ℚ))
    (hr2 : ((cur.total_expense - prev.total_expense : Int) : ℚ) / (prev.total_expense : ℚ)
      < DROP_THRESHOLD) :
    spikeAnoms cur prev =
      [⟨"drop", "low",
        .comp (((cur.total_expense - prev.total_expense : Int) : ℚ) / (prev.total_expense : ℚ))
          cur.total_expense prev.total_expense⟩] := by
  have hr1' : ¬ SPIKE_THRESHOLD <
      ((cur.total_expense : ℚ) - (prev.total_expense : ℚ)) / (prev.total_expense : ℚ) := by
    push_cast at hr1
    exact hr1
  have hr2' : ((cur.total_expense : ℚ) - (prev.total_expense : ℚ)) / (prev.total_expense : ℚ)
      < DROP_THRESHOLD := by
    push_cast at hr2
    exact hr2
  simp [spikeAnoms, hp, hr1', hr2']

theorem spikeAnoms_pos_none {cur prev : WeeklyStats} (hp : 0 < prev.total_expense)
    (hr1 : ¬ SPIKE_THRESHOLD <
      ((cur.total_expense - prev.total_expense : Int) : ℚ) / (prev.total_expense : ℚ))
    (hr2 : ¬ ((cur.total_expense - prev.total_expense : Int) : ℚ) / (prev.total_expense : ℚ)
      < DROP_THRESHOLD) :
    spikeAnoms cur prev = [] := by
  have hr1' : ¬ SPIKE_THRESHOLD <
      ((cur.total_expense : ℚ) - (prev.total_expense : ℚ)) / (prev.total_expense : ℚ) := by
    push_cast at hr1
    exact hr1
  have hr2' : ¬ ((cur.total_expense : ℚ) - (prev.total_expense : ℚ)) / (prev.total_expense : ℚ)
      < DROP_THRESHOLD := by
    push_cast at hr2
    exact hr2
  simp [spikeAnoms, hp, hr1', hr2']

theorem emitsType_detect_some_iff_spikeAnoms (cur prev : WeeklyStats) (ty : String)
    (h1 : ty ≠ "uncategorized_cluster") (h2 : ty ≠ "large_transaction")
    (h3 : ty ≠ "category_spike") :
    emitsType (detect_anomalies cur (some prev)) ty ↔ emitsType (spikeAnoms cur prev) ty := by
  have hdef : detect_anomalies cur (some prev)
      = (uncatAnoms cur ++ largeAnoms cur) ++ (spikeAnoms cur prev ++ catSpikeAnoms cur prev) := rfl
  rw [hdef, emitsType_append, emitsType_append, emitsType_append]
  constructor
  · rintro ((h | h) | (h | h))
    · exact absurd h (not_emitsType_of_types fun a ha =>
        ne_of_type_eq (uncatAnoms_type a ha) (fun he => h1 he.symm))
    · exact absurd h (not_emitsType_of_types fun a ha =>
        ne_of_type_eq (largeAnoms_type a ha) (fun he => h2 he.symm))
    · exact h
    · exact absurd h (not_emitsType_of_types fun a ha =>
        ne_of_type_eq (catSpikeAnoms_type a ha) (fun he => h3 he.symm))
  · exact fun h => Or.inr (Or.inl h)

theorem not_emitsType_detect_none (cur : WeeklyStats) (ty : String)
    (h1 : ty ≠ "uncategorized_cluster") (h2 : ty ≠ "large_transaction") :
    ¬ emitsType (detect_anomalies cur none) ty := by
  have hdef : detect_anomalies cur none = (uncatAnoms cur ++ largeAnoms cur) ++ [] := rfl
  rw [hdef, emitsType_append, emitsType_append]
  rintro ((h | h) | h)
  · exact (not_emitsType_of_types fun a ha =>
      ne_of_type_eq (uncatAnoms_type a ha) (fun he => h1 he.symm)) h
  · exact (not_emitsType_of_types fun a ha =>
      ne_of_type_eq (largeAnoms_type a ha) (fun he => h2 he.symm)) h
  · exact (not_emitsType_of_types (by simp)) h

theorem emitsType_spikeAnoms_spike_iff (cur prev : WeeklyStats) (hp : 0 < prev.total_expense) :
    emitsType (spikeAnoms cur prev) "spike" ↔
      SPIKE_THRESHOLD <
        ((cur.total_expense - prev.total_expense : Int) : ℚ) / (prev.total_expense : ℚ) := by
  by_cases hs : SPIKE_THRESHOLD <
      ((cur.total_expense - prev.total_expense : Int) : ℚ) / (prev.total_expense : ℚ)
  · rw [spikeAnoms_pos_spike hp hs]
    have hs' : SPIKE_THRESHOLD <
        ((cur.total_expense : ℚ) - (prev.total_expense : ℚ)) / (prev.total_expense : ℚ) := by
      push_cast at hs
      exact hs
    simp [emitsType, hs']
  · have hs' : ¬ SPIKE_THRESHOLD <
        ((cur.total_expense : ℚ) - (prev.total_expense : ℚ)) / (prev.total_expense : ℚ) := by
      push_cast at hs
      exact hs
    by_cases hd : ((cur.total_expense - prev.total_expense : Int) : ℚ) / (prev.total_expense : ℚ)
        < DROP_THRESHOLD
    · rw [spikeAnoms_pos_drop hp hs hd]
      simp [emitsType, hs']
    · rw [spikeAnoms_pos_none hp hs hd]
      simp [emitsType, hs']

theorem emitsType_spikeAnoms_drop_iff (cur prev : WeeklyStats) (hp : 0 < prev.total_expense) :
    emitsType (spikeAnoms cur prev) "drop" ↔
      ((cur.total_expense - prev.total_expense : Int) : ℚ) / (prev.total_expense : ℚ)
        < DROP_THRESHOLD := by
  by_cases hs : SPIKE_THRESHOLD <
      ((cur.total_expense - prev.total_expense : Int) : ℚ) / (prev.total_expense : ℚ)
  · rw [spikeAnoms_pos_spike hp hs]
    have hnd : ¬ ((cur.total_expense : ℚ) - (prev.total_expense : ℚ)) / (prev.total_expense : ℚ)
        < DROP_THRESHOLD := by
      push_cast at hs
      simp only [SPIKE_THRESHOLD, DROP_THRESHOLD] at hs ⊢
      intro hcon
      linarith
    simp [emitsType, hnd]
  · by_cases hd : ((cur.total_expense - prev.total_expense : Int) : ℚ) / (prev.total_expense : ℚ)
        < DROP_THRESHOLD
    · rw [spikeAnoms_pos_drop hp hs hd]
      have hd' : ((cur.total_expense : ℚ) - (prev.total_expense : ℚ)) / (prev.total_expense : ℚ)
          < DROP_THRESHOLD := by
        push_cast at hd
        exact hd
      simp [emitsType, hd']
    · rw [spikeAnoms_pos_none hp hs hd]
      have hd' : ¬ ((cur.total_expense : ℚ) - (prev.total_expense : ℚ)) / (prev.total_expense : ℚ)
          < DROP_THRESHOLD := by
        push_cast at hd
        exact hd
      simp [emitsType, hd']

theorem spikeAnoms_mem_severity {cur prev : WeeklyStats} :
    ∀ a ∈ spikeAnoms cur prev,
      (a.type = "spike" ∧ a.severity = "high") ∨ (a.type = "drop" ∧ a.severity = "low") := by
  intro a ha
  by_cases hp : 0 < prev.total_expense
  · by_cases hs : SPIKE_THRESHOLD <
        ((cur.total_expense - prev.total_expense : Int) : ℚ) / (prev.total_expense : ℚ)
    · rw [spikeAnoms_pos_spike hp hs, List.mem_singleton] at ha
      subst ha
      exact Or.inl ⟨rfl, rfl⟩
    · by_cases hd : ((cur.total_expense - prev.total_expense : Int) : ℚ) / (prev.total_expense : ℚ)
          < DROP_THRESHOLD
      · rw [spikeAnoms_pos_drop hp hs hd, List.mem_singleton] at ha
        subst ha
        exact Or.inr ⟨rfl, rfl⟩
      · rw [spikeAnoms_pos_none hp hs hd] at ha
        cases ha
  · rw [spikeAnoms_nonpos hp] at ha
    cases ha

theorem detect_spike_drop_severity (cur prev : WeeklyStats) :
    ∀ a ∈ detect_anomalies cur (some prev),
      (a.type = "spike" → a.severity = "high") ∧ (a.type = "drop" → a.severity = "low") := by
  intro a ha
  have hdef : detect_anomalies cur (some prev)
      = (uncatAnoms cur ++ largeAnoms cur) ++ (spikeAnoms cur prev ++ catSpikeAnoms cur prev) := rfl
  rw [hdef] at ha
  rcases List.mem_append.mp ha with h | h
  · rcases List.mem_append.mp h with h' | h'
    · have ht := uncatAnoms_type a h'
      constructor <;> intro he <;> rw [ht] at he <;> exact absurd he (by decide)
    · have ht := largeAnoms_type a h'
      constructor <;> intro he <;> rw [ht] at he <;> exact absurd he (by decide)
  · rcases List.mem_append.mp h with h' | h'
    · rcases spikeAnoms_mem_severity a h' with ⟨ht, hsev⟩ | ⟨ht, hsev⟩
      · refine ⟨fun _ => hsev, fun he => ?_⟩
        rw [ht] at he
        exact absurd he (by decide)
      · refine ⟨fun he => ?_, fun _ => hsev⟩
        rw [ht] at he
        exact absurd he (by decide)
    · have ht := catSpikeAnoms_type a h'
      constructor <;> intro he <;> rw [ht] at he <;> exact absurd he (by decide)

theorem detect_catSpike_severity (cur prev : WeeklyStats) :
    ∀ a ∈ detect_anomalies cur (some prev),
      a.type = "category_spike" → a.severity = "medium" := by
  intro a ha he
  have hdef : detect_anomalies cur (some prev)
      = (uncatAnoms cur ++ largeAnoms cur) ++ (spikeAnoms cur prev ++ catSpikeAnoms cur prev) := rfl
  rw [hdef] at ha
  rcases List.mem_append.mp ha with h | h
  · rcases List.mem_append.mp h with h' | h'
    · rw [uncatAnoms_type a h'] at he
      exact absurd he (by decide)
    · rw [largeAnoms_type a h'] at he
      exact absurd he (by decide)
  · rcases List.mem_append.mp h with h' | h'
    · rcases spikeAnoms_mem_severity a h' with ⟨ht, _⟩ | ⟨ht, _⟩ <;> rw [ht] at he <;>
        exact absurd he (by decide)
    · obtain ⟨p, _, rfl⟩ := List.mem_map.mp h'
      rfl

/-- C2: with a previous period of strictly positive total expense, a
high-severity "spike" is emitted iff the relative change exceeds 0.30, a
low-severity "drop" iff it is below −0.30, never both; with no previous
record, or a previous total expense of zero, neither is emitted. -/
theorem C2_spike_drop (cur prev : WeeklyStats) :
    (0 < prev.total_expense →
      ((emitsType (detect_anomalies cur (some prev)) "spike" ↔
          SPIKE_THRESHOLD <
            ((cur.total_expense - prev.total_expense : Int) : ℚ) / (prev.total_expense : ℚ)) ∧
       (emitsType (detect_anomalies cur (some prev)) "drop" ↔
          ((cur.total_expense - prev.total_expense : Int) : ℚ) / (prev.total_expense : ℚ)
            < DROP_THRESHOLD) ∧
       ¬(emitsType (detect_anomalies cur (some prev)) "spike" ∧
         emitsType (detect_anomalies cur (some prev)) "drop"))) ∧
    (prev.total_expense = 0 →
      ¬ emitsType (detect_anomalies cur (some prev)) "spike" ∧
      ¬ emitsType (detect_anomalies cur (some prev)) "drop") ∧
    (¬ emitsType (detect_anomalies cur none) "spike" ∧
     ¬ emitsType (detect_anomalies cur none) "drop") ∧
    (∀ a ∈ detect_anomalies cur (some prev),
      (a.type = "spike" → a.severity = "high") ∧ (a.type = "drop" → a.severity = "low")) := by
  refine ⟨?_, ?_, ?_, detect_spike_drop_severity cur prev⟩
  · intro hp
    have hspike := (emitsType_detect_some_iff_spikeAnoms cur prev "spike" (by decide) (by decide)
      (by decide)).trans (emitsType_spikeAnoms_spike_iff cur prev hp)
    have hdrop := (emitsType_detect_some_iff_spikeAnoms cur prev "drop" (by decide) (by decide)
      (by decide)).trans (emitsType_spikeAnoms_drop_iff cur prev hp)
    refine ⟨hspike, hdrop, ?_⟩
    rintro ⟨h1, h2⟩
    have hr1 := hspike.mp h1
    have hr2 := hdrop.mp h2
    simp only [SPIKE_THRESHOLD, DROP_THRESHOLD] at hr1 hr2
    linarith
  · intro hz
    have hp : ¬ 0 < prev.total_expense := by omega
    have hempty := @spikeAnoms_nonpos cur prev hp
    constructor
    · refine (emitsType_detect_some_iff_spikeAnoms cur prev "spike" (by decide) (by decide)
        (by decide)).not.mpr ?_
      rw [hempty]
      simp [emitsType]
    · refine (emitsType_detect_some_iff_spikeAnoms cur prev "drop" (by decide) (by decide)
        (by decide)).not.mpr ?_
      rw [hempty]
      simp [emitsType]
  · exact ⟨not_emitsType_detect_none cur "spike" (by decide) (by decide),
      not_emitsType_detect_none cur "drop" (by decide) (by decide)⟩

/-- C2 witness: for the fixture pair (current expense 14000, previous 10000,
relative change 0.4), the theorem instantiates with the positivity hypothesis
discharged by computation. -/
theorem C2_spike_drop_witness :
    (emitsType (detect_anomalies exCur (some exPrev)) "spike" ↔
        SPIKE_THRESHOLD <
          ((exCur.total_expense - exPrev.total_expense : Int) : ℚ) / (exPrev.total_expense : ℚ)) ∧
    (emitsType (detect_anomalies exCur (some exPrev)) "drop" ↔
        ((exCur.total_expense - exPrev.total_expense : Int) : ℚ) / (exPrev.total_expense : ℚ)
          < DROP_THRESHOLD) ∧
    ¬(emitsType (detect_anomalies exCur (some exPrev)) "spike" ∧
      emitsType (detect_anomalies exCur (some exPrev)) "drop") :=
  (C2_spike_drop exCur exPrev).1 (by decide)

/-- C8: with at least one surviving transaction, `daily_average` is
`total_expense` divided (truncating toward zero) by `max(days, 1)`, where
`days` spans the surviving transactions' dates; the divisor is positive, and
the `max` guard is inert because `days ≥ 1` always holds. -/
theorem C8_daily_average (l : List Transaction) (h : ¬ filterValid l = []) :
    1 ≤ daysCountOf (filterValid l) ∧
    0 < max (daysCountOf (filterValid l)) 1 ∧
    (calculate_weekly_stats l).daily_average
      = (calculate_weekly_stats l).total_expense.tdiv (max (daysCountOf (filterValid l)) 1) := by
  have hd : datesOf (filterValid l) ≠ [] := by
    simp [datesOf, h]
  have h1 : 1 ≤ daysCountOf (filterValid l) := by
    unfold daysCountOf
    have := pyMinList_le_pyMaxList hd
    omega
  refine ⟨h1, by omega, ?_⟩
  rw [calculate_weekly_stats_of_ne h]
  show dailyAverageOf (filterValid l)
    = (totalExpenseOf (filterValid l)).tdiv (max (daysCountOf (filterValid l)) 1)
  unfold dailyAverageOf
  rw [Int.fdiv_eq_ediv _ (by omega : (0:Int) ≤ max (daysCountOf (filterValid l)) 1),
    Int.tdiv_eq_ediv (totalExpenseOf_nonneg _) (by omega : (0:Int) ≤ max (daysCountOf (filterValid l)) 1)]

/-- C8 witness: a three-transaction input spanning 2025-01-06..09 satisfies
the hypothesis and the division facts. -/
theorem C8_daily_average_witness :
    1 ≤ daysCountOf (filterValid [exA, exB, exN]) ∧
    0 < max (daysCountOf (filterValid [exA, exB, exN])) 1 ∧
    (calculate_weekly_stats [exA, exB, exN]).daily_average
      = (calculate_weekly_stats [exA, exB, exN]).total_expense.tdiv
          (max (daysCountOf (filterValid [exA, exB, exN])) 1) :=
  C8_daily_average [exA, exB, exN] (by decide)

theorem spikeAnoms_type {cur prev : WeeklyStats} :
    ∀ a ∈ spikeAnoms cur prev, a.type = "spike" ∨ a.type = "drop" := by
  intro a ha
  by_cases hp : 0 < prev.total_expense
  · by_cases hs : SPIKE_THRESHOLD <
        ((cur.total_expense - prev.total_expense : Int) : ℚ) / (prev.total_expense : ℚ)
    · rw [spikeAnoms_pos_spike hp hs, List.mem_singleton] at ha
      subst ha
      exact Or.inl rfl
    · by_cases hd : ((cur.total_expense - prev.total_expense : Int) : ℚ) / (prev.total_expense : ℚ)
          < DROP_THRESHOLD
      · rw [spikeAnoms_pos_drop hp hs hd, List.mem_singleton] at ha
        subst ha
        exact Or.inr rfl
      · rw [spikeAnoms_pos_none hp hs hd] at ha
        cases ha
  · rw [spikeAnoms_nonpos hp] at ha
    cases ha

theorem mem_catSpikeAnoms_iff {cur prev : WeeklyStats} {a : Anomaly} :
    a ∈ catSpikeAnoms cur prev ↔
      ∃ p ∈ cur.category_breakdown,
        0 < lookupAmount prev.category_breakdown p.1 ∧
        (lookupAmount prev.category_breakdown p.1 : ℚ) * (1 + SPIKE_THRESHOLD) < (p.2 : ℚ) ∧
        a = ⟨"category_spike", "medium",
          .catSpike p.1 p.2 (lookupAmount prev.category_breakdown p.1)⟩ := by
  unfold catSpikeAnoms
  simp only [List.mem_map, List.mem_filter, Bool.and_eq_true, decide_eq_true_eq]
  constructor
  · rintro ⟨p, ⟨hp, hc1, hc2⟩, rfl⟩
    exact ⟨p, hp, hc1, hc2, rfl⟩
  · rintro ⟨p, hp, hc1, hc2, rfl⟩
    exact ⟨p, ⟨hp, hc1, hc2⟩, rfl⟩

theorem emitsCatSpike_detect_iff (cur prev : WeeklyStats) (c : String) :
    emitsCatSpike (detect_anomalies cur (some prev)) c ↔
      emitsCatSpike (catSpikeAnoms cur prev) c := by
  have hdef : detect_anomalies cur (some prev)
      = (uncatAnoms cur ++ largeAnoms cur) ++ (spikeAnoms cur prev ++ catSpikeAnoms cur prev) := rfl
  rw [hdef]
  constructor
  · rintro ⟨a, ha, hty, hdata⟩
    rcases List.mem_append.mp ha with h | h
    · rcases List.mem_append.mp h with h' | h'
      · exact absurd hty (ne_of_type_eq (uncatAnoms_type a h') (by decide))
      · exact absurd hty (ne_of_type_eq (largeAnoms_type a h') (by decide))
    · rcases List.mem_append.mp h with h' | h'
      · rcases spikeAnoms_type a h' with he | he
        · exact absurd hty (ne_of_type_eq he (by decide))
        · exact absurd hty (ne_of_type_eq he (by decide))
      · exact ⟨a, h', hty, hdata⟩
  · rintro ⟨a, ha, hty, hdata⟩
    exact ⟨a, List.mem_append.mpr (Or.inr (List.mem_append.mpr (Or.inr ha))), hty, hdata⟩

/-- C4: with a previous period supplied, a medium-severity category-spike
anomaly is emitted for category `c` iff `c` occurs in the current breakdown
with an amount strictly above the previous amount × 1.30 and the previous
amount is strictly positive; categories absent from the previous period, and
category-level decreases, never produce one. -/
theorem C4_category_spike (cur prev : WeeklyStats) (c : String) :
    (emitsCatSpike (detect_anomalies cur (some prev)) c ↔
      ∃ p ∈ cur.category_breakdown, p.1 = c ∧
        0 < lookupAmount prev.category_breakdown c ∧
        (lookupAmount prev.category_breakdown c : ℚ) * (1 + SPIKE_THRESHOLD) < (p.2 : ℚ)) ∧
    ((∀ p ∈ prev.category_breakdown, p.1 ≠ c) →
      ¬ emitsCatSpike (detect_anomalies cur (some prev)) c) ∧
    ((∀ p ∈ cur.category_breakdown,
        p.1 = c → (p.2 : ℚ) ≤ (lookupAmount prev.category_breakdown c : ℚ)) →
      ¬ emitsCatSpike (detect_anomalies cur (some prev)) c) ∧
    (∀ a ∈ detect_anomalies cur (some prev),
      a.type = "category_spike" → a.severity = "medium") := by
  have hmain : emitsCatSpike (detect_anomalies cur (some prev)) c ↔
      ∃ p ∈ cur.category_breakdown, p.1 = c ∧
        0 < lookupAmount prev.category_breakdown c ∧
        (lookupAmount prev.category_breakdown c : ℚ) * (1 + SPIKE_THRESHOLD) < (p.2 : ℚ) := by
    rw [emitsCatSpike_detect_iff]
    constructor
    · rintro ⟨a, ha, hty, ca, pa, hdata⟩
      obtain ⟨p, hp, hc1, hc2, rfl⟩ := mem_catSpikeAnoms_iff.mp ha
      have hdata' : AnomalyData.catSpike p.1 p.2 (lookupAmount prev.category_breakdown p.1)
          = AnomalyData.catSpike c ca pa := hdata
      injection hdata' with h1 h2 h3
      exact ⟨p, hp, h1, h1 ▸ hc1, h1 ▸ hc2⟩
    · rintro ⟨p, hp, hpc, hc1, hc2⟩
      refine ⟨⟨"category_spike", "medium",
          .catSpike p.1 p.2 (lookupAmount prev.category_breakdown p.1)⟩,
        mem_catSpikeAnoms_iff.mpr ⟨p, hp, by rw [hpc]; exact hc1, by rw [hpc]; exact hc2, rfl⟩,
        rfl, p.2, lookupAmount prev.category_breakdown p.1, by rw [hpc]⟩
  refine ⟨hmain, ?_, ?_, detect_catSpike_severity cur prev⟩
  · intro habs hem
    obtain ⟨p, hp, hpc, hc1, hc2⟩ := hmain.mp hem
    rw [lookupAmount_of_not_mem habs] at hc1
    exact absurd hc1 (lt_irrefl 0)
  · intro hdec hem
    obtain ⟨p, hp, hpc, hc1, hc2⟩ := hmain.mp hem
    have hle := hdec p hp hpc
    have hpos : (0:ℚ) < (lookupAmount prev.category_breakdown c : ℚ) := by exact_mod_cast hc1
    simp only [SPIKE_THRESHOLD] at hc2
    linarith

/-- C4 witness: "Travel" is absent from the previous-period breakdown of the
fixture, so no category-spike anomaly is emitted for it. -/
theorem C4_category_spike_witness :
    ¬ emitsCatSpike (detect_anomalies exCur (some exPrev)) "Travel" :=
  (C4_category_spike exCur exPrev "Travel").2.1 (by decide)

/-! ### Budget-health lemmas -/

theorem calculate_budget_health_of_ne {stats : WeeklyStats} {b : List (String × Int)}
    (hb : ¬ b = []) :
    calculate_budget_health stats (some b) =
      [("status", .str (healthStatusOf stats b)),
       ("message", .str (healthMessageOf stats b)),
       ("projected_monthly", .int (projectedMonthlyOf stats)),
       ("total_budget", .int (budgetTotalOf b)),
       ("remaining", .int (budgetTotalOf b - projectedMonthlyOf stats)),
       ("health_ratio", .rat (healthRatioOf stats b))] := by
  simp [calculate_budget_health, hb]

theorem getField_budget_status {stats : WeeklyStats} {b : List (String × Int)} (hb : ¬ b = []) :
    getField (calculate_budget_health stats (some b)) "status"
      = some (.str (healthStatusOf stats b)) := by
  rw [calculate_budget_health_of_ne hb]
  rfl

theorem getField_budget_ratio {stats : WeeklyStats} {b : List (String × Int)} (hb : ¬ b = []) :
    getField (calculate_budget_health stats (some b)) "health_ratio"
      = some (.rat (healthRatioOf stats b)) := by
  rw [calculate_budget_health_of_ne hb]
  rfl

theorem getField_budget_projected {stats : WeeklyStats} {b : List (String × Int)} (hb : ¬ b = []) :
    getField (calculate_budget_health stats (some b)) "projected_monthly"
      = some (.int (projectedMonthlyOf stats)) := by
  rw [calculate_budget_health_of_ne hb]
  rfl

theorem getField_budget_total {stats : WeeklyStats} {b : List (String × Int)} (hb : ¬ b = []) :
    getField (calculate_budget_health stats (some b)) "total_budget"
      = some (.int (budgetTotalOf b)) := by
  rw [calculate_budget_health_of_ne hb]
  rfl

theorem getField_budget_remaining {stats : WeeklyStats} {b : List (String × Int)} (hb : ¬ b = []) :
    getField (calculate_budget_health stats (some b)) "remaining"
      = some (.int (budgetTotalOf b - projectedMonthlyOf stats)) := by
  rw [calculate_budget_health_of_ne hb]
  rfl

theorem getField_budget_message {stats : WeeklyStats} {b : List (String × Int)} (hb : ¬ b = []) :
    getField (calculate_budget_health stats (some b)) "message"
      = some (.str (healthMessageOf stats b)) := by
  rw [calculate_budget_health_of_ne hb]
  rfl

theorem healthStatusOf_eq_healthy_iff (stats : WeeklyStats) (b : List (String × Int)) :
    healthStatusOf stats b = "healthy" ↔ healthRatioOf stats b < 8 / 10 := by
  unfold healthStatusOf
  by_cases h1 : healthRatioOf stats b < 8 / 10
  · simp [h1]
  · by_cases h2 : healthRatioOf stats b < 1 <;> simp [h1, h2]

theorem healthStatusOf_eq_warning_iff (stats : WeeklyStats) (b : List (String × Int)) :
    healthStatusOf stats b = "warning" ↔
      8 / 10 ≤ healthRatioOf stats b ∧ healthRatioOf stats b < 1 := by
  unfold healthStatusOf
  by_cases h1 : healthRatioOf stats b < 8 / 10
  · simp [h1]
  · by_cases h2 : healthRatioOf stats b < 1 <;> simp [h1, h2, not_lt.mp h1]

theorem healthStatusOf_eq_critical_iff (stats : WeeklyStats) (b : List (String × Int)) :
    healthStatusOf stats b = "critical" ↔ 1 ≤ healthRatioOf stats b := by
  unfold healthStatusOf
  by_cases h1 : healthRatioOf stats b < 8 / 10
  · simp only [if_pos h1]
    constructor
    · intro h
      exact absurd h (by decide)
    · intro h
      linarith
  · by_cases h2 : healthRatioOf stats b < 1
    · simp only [if_neg h1, if_pos h2]
      constructor
      · intro h
        exact absurd h (by decide)
      · intro h
        linarith
    · simp only [if_neg h1, if_neg h2]
      simp [not_lt.mp h2]

/-- C7 counterexample: with current expense 14000 and the configured budget
`{"a": -100}`, the total budget is −100 (nonzero), the claim's formula
`projectedMonthly / totalBudget` is −560 ≠ 0, yet the returned record stores
`health_ratio = 0` — the code's guard is `total_budget > 0`, not
`total_budget ≠ 0`/`= 0` as the claim reads. -/
theorem C7_budget_health_counterexample :
    getField (calculate_budget_health exCur (some [("a", -100)])) "health_ratio"
        = some (FieldVal.rat 0) ∧
    budgetTotalOf [("a", -100)] ≠ 0 ∧
    (projectedMonthlyOf exCur : ℚ) / (budgetTotalOf [("a", -100)] : ℚ) ≠ 0 := by
  refine ⟨rfl, by decide, ?_⟩
  show ((56000 : Int) : ℚ) / ((-100 : Int) : ℚ) ≠ 0
  norm_num

/-- C7 (amended): with no budget (or an empty budget mapping) the "unknown"
record is returned without error; otherwise the stored health ratio is
`projectedMonthly / totalBudget` when `totalBudget > 0` and `0` whenever
`totalBudget ≤ 0` (the code's divide-by-zero guard), and the status is
"healthy" iff ratio < 0.8, "warning" iff 0.8 ≤ ratio < 1.0, "critical" iff
ratio ≥ 1.0. -/
theorem C7_budget_health_amended (stats : WeeklyStats) :
    (calculate_budget_health stats none = budgetUnknown ∧
     calculate_budget_health stats (some []) = budgetUnknown) ∧
    (∀ b : List (String × Int), b ≠ [] →
      (getField (calculate_budget_health stats (some b)) "health_ratio"
          = some (.rat (healthRatioOf stats b)) ∧
       healthRatioOf stats b
          = (if 0 < budgetTotalOf b
             then (projectedMonthlyOf stats : ℚ) / (budgetTotalOf b : ℚ) else 0)) ∧
      (getField (calculate_budget_health stats (some b)) "status" = some (.str "healthy")
        ↔ healthRatioOf stats b < 8 / 10) ∧
      (getField (calculate_budget_health stats (some b)) "status" = some (.str "warning")
        ↔ 8 / 10 ≤ healthRatioOf stats b ∧ healthRatioOf stats b < 1) ∧
      (getField (calculate_budget_health stats (some b)) "status" = some (.str "critical")
        ↔ 1 ≤ healthRatioOf stats b)) := by
  refine ⟨⟨rfl, rfl⟩, ?_⟩
  intro b hb
  refine ⟨⟨getField_budget_ratio hb, rfl⟩, ?_, ?_, ?_⟩
  · rw [getField_budget_status hb]
    simp only [Option.some.injEq, FieldVal.str.injEq]
    exact healthStatusOf_eq_healthy_iff stats b
  · rw [getField_budget_status hb]
    simp only [Option.some.injEq, FieldVal.str.injEq]
    exact healthStatusOf_eq_warning_iff stats b
  · rw [getField_budget_status hb]
    simp only [Option.some.injEq, FieldVal.str.injEq]
    exact healthStatusOf_eq_critical_iff stats b

/-- C7 witness: a singleton budget of 100000 cents against the fixture's
expense instantiates the amended theorem. -/
theorem C7_budget_health_witness :
    (getField (calculate_budget_health exCur (some [("Rent", 100000)])) "health_ratio"
        = some (.rat (healthRatioOf exCur [("Rent", 100000)])) ∧
     healthRatioOf exCur [("Rent", 100000)]
        = (if 0 < budgetTotalOf [("Rent", 100000)]
           then (projectedMonthlyOf exCur : ℚ) / (budgetTotalOf [("Rent", 100000)] : ℚ)
           else 0)) ∧
    (getField (calculate_budget_health exCur (some [("Rent", 100000)])) "status"
        = some (.str "healthy")
      ↔ healthRatioOf exCur [("Rent", 100000)] < 8 / 10) ∧
    (getField (calculate_budget_health exCur (some [("Rent", 100000)])) "status"
        = some (.str "warning")
      ↔ 8 / 10 ≤ healthRatioOf exCur [("Rent", 100000)] ∧
        healthRatioOf exCur [("Rent", 100000)] < 1) ∧
    (getField (calculate_budget_health exCur (some [("Rent", 100000)])) "status"
        = some (.str "critical")
      ↔ 1 ≤ healthRatioOf exCur [("Rent", 100000)]) :=
  (C7_budget_health_amended exCur).2 [("Rent", 100000)] (by decide)

/-- C10 counterexample: the "unknown" record returned for a missing budget
carries only `status` and `message`; the numeric fields the claim promises
are absent. -/
theorem C10_budget_record_counterexample :
    getField (calculate_budget_health exCur none) "status" = some (.str "unknown") ∧
    getField (calculate_budget_health exCur none) "projected_monthly" = none ∧
    getField (calculate_budget_health exCur none) "total_budget" = none ∧
    getField (calculate_budget_health exCur none) "remaining" = none ∧
    getField (calculate_budget_health exCur none) "health_ratio" = none :=
  ⟨rfl, rfl, rfl, rfl, rfl⟩

/-- C10 (amended): every budget-health record carries `status` and `message`;
the unknown record (missing or empty budget) carries nothing else, while a
configured budget additionally yields the monthly projection, the total
budget, the remaining budget `totalBudget − projectedMonthly` (possibly
negative), and the health ratio. -/
theorem C10_budget_record_fields (stats : WeeklyStats) :
    (getField (calculate_budget_health stats none) "status" = some (.str "unknown") ∧
     (getField (calculate_budget_health stats none) "message").isSome = true ∧
     getField (calculate_budget_health stats none) "projected_monthly" = none ∧
     getField (calculate_budget_health stats none) "total_budget" = none ∧
     getField (calculate_budget_health stats none) "remaining" = none ∧
     getField (calculate_budget_health stats none) "health_ratio" = none) ∧
    (∀ b : List (String × Int), b ≠ [] →
      (getField (calculate_budget_health stats (some b)) "status").isSome = true ∧
      (getField (calculate_budget_health stats (some b)) "message").isSome = true ∧
      getField (calculate_budget_health stats (some b)) "projected_monthly"
        = some (.int (projectedMonthlyOf stats)) ∧
      getField (calculate_budget_health stats (some b)) "total_budget"
        = some (.int (budgetTotalOf b)) ∧
      getField (calculate_budget_health stats (some b)) "remaining"
        = some (.int (budgetTotalOf b - projectedMonthlyOf stats)) ∧
      getField (calculate_budget_health stats (some b)) "health_ratio"
        = some (.rat (healthRatioOf stats b))) := by
  refine ⟨⟨rfl, rfl, rfl, rfl, rfl, rfl⟩, ?_⟩
  intro b hb
  refine ⟨?_, ?_, getField_budget_projected hb, getField_budget_total hb,
    getField_budget_remaining hb, getField_budget_ratio hb⟩
  · rw [getField_budget_status hb]
    rfl
  · rw [getField_budget_message hb]
    rfl

/-- C10 witness: a configured budget of 50000 cents against the fixture's
56000-cent projection (remaining −6000, negative) carries all six fields. -/
theorem C10_budget_record_fields_witness :
    (getField (calculate_budget_health exCur (some [("Food", 50000)])) "status").isSome = true ∧
    (getField (calculate_budget_health exCur (some [("Food", 50000)])) "message").isSome = true ∧
    getField (calculate_budget_health exCur (some [("Food", 50000)])) "projected_monthly"
      = some (.int (projectedMonthlyOf exCur)) ∧
    getField (calculate_budget_health exCur (some [("Food", 50000)])) "total_budget"
      = some (.int (budgetTotalOf [("Food", 50000)])) ∧
    getField (calculate_budget_health exCur (some [("Food", 50000)])) "remaining"
      = some (.int (budgetTotalOf [("Food", 50000)] - projectedMonthlyOf exCur)) ∧
    getField (calculate_budget_health exCur (some [("Food", 50000)])) "health_ratio"
      = some (.rat (healthRatioOf exCur [("Food", 50000)])) :=
  (C10_budget_record_fields exCur).2 [("Food", 50000)] (by decide)

/-! ### Stable sort / filter commutation (for the top-transaction claim) -/

theorem orderedInsert_eq_cons {α} (r : α → α → Prop) [DecidableRel r] (a : α) :
    ∀ (m : List α), (∀ b ∈ m, r a b) → List.orderedInsert r a m = a :: m
  | [], _ => rfl
  | b :: t, h => by
    have hab : r a b := h b (List.mem_cons_self b t)
    simp [List.orderedInsert, hab]

theorem filter_orderedInsert {α} (r : α → α → Prop) [DecidableRel r] [IsTotal α r] [IsTrans α r]
    (p : α → Bool) (a : α) (m : List α) (hm : List.Sorted r m) :
    (List.orderedInsert r a m).filter p
      = if p a then List.orderedInsert r a (m.filter p) else m.filter p := by
  induction m with
  | nil =>
    cases hpa : p a <;> simp [List.orderedInsert, hpa]
  | cons b t ih =>
    have hst : List.Sorted r t := hm.of_cons
    by_cases hab : r a b
    · have hall : ∀ c ∈ (b :: t).filter p, r a c := by
        intro c hc
        have hc' : c ∈ b :: t := List.mem_of_mem_filter hc
        rcases List.mem_cons.mp hc' with rfl | hct
        · exact hab
        · exact IsTrans.trans a b c hab (List.rel_of_sorted_cons hm c hct)
      rw [show List.orderedInsert r a (b :: t) = a :: b :: t from by
            simp [List.orderedInsert, hab],
          orderedInsert_eq_cons r a ((b :: t).filter p) hall]
      cases hpa : p a <;> simp [List.filter_cons, hpa]
    · have iht := ih hst
      rw [show List.orderedInsert r a (b :: t) = b :: List.orderedInsert r a t from by
            simp [List.orderedInsert, hab]]
      cases hpa : p a
      · cases hpb : p b <;> simp [List.filter_cons, hpa, hpb, iht]
      · cases hpb : p b
        · simp [List.filter_cons, hpa, hpb, iht]
        · simp [List.filter_cons, hpa, hpb, iht, List.orderedInsert, hab]

theorem filter_insertionSort {α} (r : α → α → Prop) [DecidableRel r] [IsTotal α r] [IsTrans α r]
    (p : α → Bool) (l : List α) :
    (List.insertionSort r l).filter p = List.insertionSort r (l.filter p) := by
  induction l with
  | nil => rfl
  | cons a t ih =>
    rw [List.insertionSort, filter_orderedInsert r p a _ (List.sorted_insertionSort r t), ih,
      List.filter_cons]
    cases hpa : p a <;> simp [hpa, List.insertionSort]

theorem simplify_amount_neg (t : Transaction) :
    decide ((simplify t).amount < 0) = decide (t.amount < 0) := by
  apply decide_eq_decide.mpr
  show (t.amount : ℚ) / 100 < 0 ↔ t.amount < 0
  rw [div_neg_iff]
  constructor
  · rintro (⟨h1, h2⟩ | ⟨h1, h2⟩)
    · norm_num at h2
    · exact_mod_cast h1
  · intro h
    exact Or.inr ⟨by exact_mod_cast h, by norm_num⟩

theorem length_expenses_simplified (valid : List Transaction) :
    ((simplifiedOf valid).filter fun x => decide (x.amount < 0)).length
      = (valid.filter fun t => decide (t.amount < 0)).length := by
  unfold simplifiedOf
  rw [List.filter_map, List.length_map]
  congr 1
  apply List.filter_congr
  intro t _
  exact simplify_amount_neg t

theorem stats_top_transactions (l : List Transaction) :
    (calculate_weekly_stats l).top_transactions = topTransactionsOf (filterValid l) := by
  by_cases hv : filterValid l = []
  · rw [calculate_weekly_stats_nil hv, hv]
    rfl
  · rw [calculate_weekly_stats_of_ne hv]

/-- C3: the top expense transactions are all surviving expenses above $20
absolute, sorted descending by absolute amount; if fewer than 5 qualify, they
are instead the unconditional top 5 expenses; consequently the list has
length ≥ 5 whenever at least 5 expenses survive, and every entry exceeds $20
absolute unless the list is the unconditional top 5. -/
theorem C3_top_expense_transactions (l : List Transaction) :
    (¬ ((allExpensesOf (filterValid l)).filter
          fun x => decide ((20:ℚ) < |x.amount|)).length < 5 →
      (calculate_weekly_stats l).top_transactions
        = List.insertionSort amtGe ((simplifiedOf (filterValid l)).filter
            fun x => decide ((20:ℚ) < |x.amount|) && decide (x.amount < 0))) ∧
    (((allExpensesOf (filterValid l)).filter
          fun x => decide ((20:ℚ) < |x.amount|)).length < 5 →
      (calculate_weekly_stats l).top_transactions = (allExpensesOf (filterValid l)).take 5) ∧
    (5 ≤ ((filterValid l).filter fun t => decide (t.amount < 0)).length →
      5 ≤ (calculate_weekly_stats l).top_transactions.length) ∧
    (∀ e ∈ (calculate_weekly_stats l).top_transactions,
      (20:ℚ) < |e.amount| ∨
        (calculate_weekly_stats l).top_transactions
          = (allExpensesOf (filterValid l)).take 5) := by
  rw [stats_top_transactions l]
  have hiff : topTransactionsOf (filterValid l)
      = if ((allExpensesOf (filterValid l)).filter
            fun x => decide ((20:ℚ) < |x.amount|)).length < 5
        then (allExpensesOf (filterValid l)).take 5
        else ((allExpensesOf (filterValid l)).filter
          fun x => decide ((20:ℚ) < |x.amount|)) := rfl
  have hlenA : (allExpensesOf (filterValid l)).length
      = ((filterValid l).filter fun t => decide (t.amount < 0)).length := by
    unfold allExpensesOf
    rw [List.length_insertionSort]
    exact length_expenses_simplified (filterValid l)
  refine ⟨?_, ?_, ?_, ?_⟩
  · intro hq
    rw [hiff, if_neg hq]
    unfold allExpensesOf
    rw [filter_insertionSort amtGe _ _, List.filter_filter]
  · intro hq
    rw [hiff, if_pos hq]
  · intro hexp
    rw [hiff]
    by_cases hq : ((allExpensesOf (filterValid l)).filter
        fun x => decide ((20:ℚ) < |x.amount|)).length < 5
    · rw [if_pos hq, List.length_take]
      omega
    · rw [if_neg hq]
      omega
  · intro e he
    by_cases hq : ((allExpensesOf (filterValid l)).filter
        fun x => decide ((20:ℚ) < |x.amount|)).length < 5
    · right
      rw [hiff, if_pos hq]
    · left
      rw [hiff, if_neg hq] at he
      exact of_decide_eq_true (List.mem_filter.mp he).2

/-- C3 witness: six surviving expenses (all above $20) give a top list of
length at least 5. -/
theorem C3_top_expense_transactions_witness :
    5 ≤ (calculate_weekly_stats [exB, exE1, exE2, exE3, exE4, exE5]).top_transactions.length :=
  (C3_top_expense_transactions [exB, exE1, exE2, exE3, exE4, exE5]).2.2.1 (by decide)

/-! ### Permutation invariance machinery -/

theorem totalIncomeOf_perm {v1 v2 : List Transaction} (h : v1.Perm v2) :
    totalIncomeOf v1 = totalIncomeOf v2 :=
  List.Perm.sum_eq ((h.filter _).map _)

theorem totalExpenseOf_perm {v1 v2 : List Transaction} (h : v1.Perm v2) :
    totalExpenseOf v1 = totalExpenseOf v2 :=
  congrArg abs (List.Perm.sum_eq ((h.filter _).map _))

theorem uncategorizedCountOf_perm {v1 v2 : List Transaction} (h : v1.Perm v2) :
    uncategorizedCountOf v1 = uncategorizedCountOf v2 :=
  congrArg Nat.cast ((h.filter _).length_eq)

theorem datesOf_ne_nil {v : List Transaction} (h : v ≠ []) : datesOf v ≠ [] := by
  simp [datesOf, h]

theorem daysCountOf_perm {v1 v2 : List Transaction} (h : v1.Perm v2) (h1 : v1 ≠ []) :
    daysCountOf v1 = daysCountOf v2 := by
  unfold daysCountOf datesOf
  rw [pyMinList_perm (h.map _) (datesOf_ne_nil h1), pyMaxList_perm (h.map _) (datesOf_ne_nil h1)]

theorem dailyAverageOf_perm {v1 v2 : List Transaction} (h : v1.Perm v2) (h1 : v1 ≠ []) :
    dailyAverageOf v1 = dailyAverageOf v2 := by
  unfold dailyAverageOf
  rw [totalExpenseOf_perm h, daysCountOf_perm h h1]

theorem lookupAmount_categoryTotalsOf_perm {v1 v2 : List Transaction} (h : v1.Perm v2)
    (k : String) :
    lookupAmount (categoryTotalsOf v1) k = lookupAmount (categoryTotalsOf v2) k := by
  unfold categoryTotalsOf
  rw [lookupAmount_catFold, lookupAmount_catFold]
  exact congrArg (lookupAmount [] k + ·) (List.Perm.sum_eq ((h.filter _).map _))

theorem simplifiedOf_perm {v1 v2 : List Transaction} (h : v1.Perm v2) :
    (simplifiedOf v1).Perm (simplifiedOf v2) :=
  h.map _

theorem largeOf_perm {v1 v2 : List Transaction} (h : v1.Perm v2) :
    (largeOf v1).Perm (largeOf v2) :=
  (h.filter _).map _

/-- C9 counterexample: two valid expense transactions with distinct payees,
amounts and dates (so no top-N sort key is tied), fed in the two possible
orders, give different statistics records: `simplified_transactions` follows
the input order. -/
theorem C9_order_counterexample :
    calculate_weekly_stats [exA, exB] ≠ calculate_weekly_stats [exB, exA] := by
  intro h
  have h2 := congrArg (fun s => s.simplified_transactions.map SimplifiedTxn.payee) h
  exact absurd h2 (by decide)

theorem eq_of_perm_of_sorted_on {α : Type _} {r : α → α → Prop} :
    ∀ (l1 : List α) {l2 : List α}, l1.Perm l2 → List.Sorted r l1 → List.Sorted r l2 →
      (∀ x ∈ l1, ∀ y ∈ l1, r x y → r y x → x = y) → l1 = l2
  | [], _, hp, _, _, _ => hp.nil_eq
  | a :: t1, [], hp, _, _, _ => absurd (List.Perm.eq_nil hp) (by simp)
  | a :: t1, b :: t2, hp, hs1, hs2, hinj => by
    have hbmem : b ∈ a :: t1 := hp.mem_iff.mpr (List.mem_cons_self b t2)
    have hamem : a ∈ b :: t2 := hp.mem_iff.mp (List.mem_cons_self a t1)
    have hab : a = b := by
      rcases List.mem_cons.mp hbmem with heq | hbt
      · exact heq.symm
      · rcases List.mem_cons.mp hamem with heq | hat
        · exact heq
        · exact hinj a (List.mem_cons_self a t1) b hbmem
            (List.rel_of_sorted_cons hs1 b hbt) (List.rel_of_sorted_cons hs2 a hat)
    subst hab
    have hpt : t1.Perm t2 := hp.cons_inv
    rw [eq_of_perm_of_sorted_on t1 hpt hs1.of_cons hs2.of_cons
      (fun x hx y hy => hinj x (List.mem_cons_of_mem a hx) y (List.mem_cons_of_mem a hy))]

theorem insertionSort_amtGe_eq_of_perm {s1 s2 : List SimplifiedTxn} (h : s1.Perm s2)
    (hdist : (s1.map fun x => |x.amount|).Nodup) :
    List.insertionSort amtGe s1 = List.insertionSort amtGe s2 := by
  apply eq_of_perm_of_sorted_on _
    (((List.perm_insertionSort amtGe s1).trans h).trans (List.perm_insertionSort amtGe s2).symm)
    (List.sorted_insertionSort amtGe s1) (List.sorted_insertionSort amtGe s2)
  intro x hx y hy hxy hyx
  exact List.inj_on_of_nodup_map hdist ((List.mem_insertionSort amtGe).mp hx)
    ((List.mem_insertionSort amtGe).mp hy) (le_antisymm hyx hxy)

theorem insertionSort_valGe_eq_of_perm {m1 m2 : List (String × Int)} (h : m1.Perm m2)
    (hdist : (m1.map Prod.snd).Nodup) :
    List.insertionSort valGe m1 = List.insertionSort valGe m2 := by
  apply eq_of_perm_of_sorted_on _
    (((List.perm_insertionSort valGe m1).trans h).trans (List.perm_insertionSort valGe m2).symm)
    (List.sorted_insertionSort valGe m1) (List.sorted_insertionSort valGe m2)
  intro x hx y hy hxy hyx
  exact List.inj_on_of_nodup_map hdist ((List.mem_insertionSort valGe).mp hx)
    ((List.mem_insertionSort valGe).mp hy) (le_antisymm hyx hxy)

theorem mem_keys_addAmount {m : List (String × Int)} {k : String} {v : Int} {k' : String} :
    k' ∈ (addAmount m k v).map Prod.fst ↔ k' ∈ m.map Prod.fst ∨ k' = k := by
  induction m with
  | nil => simp [addAmount]
  | cons p t ih =>
    obtain ⟨k0, v0⟩ := p
    by_cases h0 : k0 = k
    · subst h0
      simp [addAmount]
      tauto
    · simp [addAmount, h0, ih]
      tauto

theorem nodup_keys_addAmount {m : List (String × Int)} {k : String} {v : Int}
    (h : (m.map Prod.fst).Nodup) : ((addAmount m k v).map Prod.fst).Nodup := by
  induction m with
  | nil => simp [addAmount]
  | cons p t ih =>
    obtain ⟨k0, v0⟩ := p
    simp only [List.map_cons, List.nodup_cons] at h
    by_cases h0 : k0 = k
    · subst h0
      rw [show addAmount ((k0, v0) :: t) k0 v = (k0, v0 + v) :: t from by simp [addAmount]]
      simp only [List.map_cons, List.nodup_cons]
      exact ⟨h.1, h.2⟩
    · simp only [addAmount, if_neg h0, List.map_cons, List.nodup_cons]
      refine ⟨?_, ih h.2⟩
      rw [mem_keys_addAmount]
      rintro (hmem | heq)
      · exact h.1 hmem
      · exact h0 heq

theorem nodup_keys_catFold (l : List Transaction) :
    ∀ m : List (String × Int), (m.map Prod.fst).Nodup →
      ((l.foldl (fun m t => addAmount m (catName t) |t.amount|) m).map Prod.fst).Nodup := by
  induction l with
  | nil => exact fun m hm => hm
  | cons a t ih => exact fun m hm => ih _ (nodup_keys_addAmount hm)

theorem pos_values_addAmount {m : List (String × Int)} {k : String} {v : Int}
    (hm : ∀ p ∈ m, 0 < p.2) (hv : 0 < v) : ∀ p ∈ addAmount m k v, 0 < p.2 := by
  induction m with
  | nil =>
    intro p hp
    rw [show addAmount [] k v = [(k, v)] from rfl, List.mem_singleton] at hp
    subst hp
    exact hv
  | cons q t ih =>
    obtain ⟨k0, v0⟩ := q
    intro p hp
    by_cases h0 : k0 = k
    · subst h0
      simp only [addAmount, if_pos rfl] at hp
      rcases List.mem_cons.mp hp with rfl | hpt
      · exact add_pos (hm (k0, v0) (List.mem_cons_self _ _)) hv
      · exact hm p (List.mem_cons_of_mem _ hpt)
    · simp only [addAmount, if_neg h0] at hp
      rcases List.mem_cons.mp hp with rfl | hpt
      · exact hm (k0, v0) (List.mem_cons_self _ _)
      · exact ih (fun q hq => hm q (List.mem_cons_of_mem _ hq)) p hpt

theorem pos_values_catFold :
    ∀ (l : List Transaction) (m : List (String × Int)), (∀ t ∈ l, t.amount ≠ 0) →
      (∀ p ∈ m, 0 < p.2) →
      ∀ p ∈ l.foldl (fun m t => addAmount m (catName t) |t.amount|) m, 0 < p.2
  | [], _, _, hm => hm
  | a :: t, _, hl, hm =>
    pos_values_catFold t _ (fun x hx => hl x (List.mem_cons_of_mem a hx))
      (pos_values_addAmount hm (abs_pos.mpr (hl a (List.mem_cons_self a t))))

theorem lookupAmount_eq_of_mem {m : List (String × Int)} (hnod : (m.map Prod.fst).Nodup)
    {k : String} {v : Int} (hm : (k, v) ∈ m) : lookupAmount m k = v := by
  induction m with
  | nil => cases hm
  | cons p t ih =>
    obtain ⟨k0, v0⟩ := p
    simp only [List.map_cons, List.nodup_cons] at hnod
    rcases List.mem_cons.mp hm with heq | hmt
    · cases heq
      simp [lookupAmount]
    · have hk : k0 ≠ k := by
        intro he
        subst he
        exact hnod.1 (List.mem_map.mpr ⟨(k0, v), hmt, rfl⟩)
      simp only [lookupAmount, if_neg hk]
      exact ih hnod.2 hmt

theorem mem_of_lookupAmount_pos {m : List (String × Int)} {k : String}
    (h : 0 < lookupAmount m k) : (k, lookupAmount m k) ∈ m := by
  induction m with
  | nil => simp [lookupAmount] at h
  | cons p t ih =>
    obtain ⟨k0, v0⟩ := p
    by_cases h0 : k0 = k
    · subst h0
      simp only [lookupAmount, if_pos rfl] at h ⊢
      exact List.mem_cons_self _ _
    · simp only [lookupAmount, if_neg h0] at h ⊢
      exact List.mem_cons_of_mem _ (ih h)

theorem assoc_perm_of_lookup_eq {m1 m2 : List (String × Int)}
    (h1 : (m1.map Prod.fst).Nodup) (h2 : (m2.map Prod.fst).Nodup)
    (hpos1 : ∀ p ∈ m1, 0 < p.2) (hpos2 : ∀ p ∈ m2, 0 < p.2)
    (hlook : ∀ k, lookupAmount m1 k = lookupAmount m2 k) : m1.Perm m2 := by
  have hmem : ∀ p : String × Int, p ∈ m1 ↔ p ∈ m2 := by
    rintro ⟨k, v⟩
    constructor
    · intro hm
      have hv := hpos1 _ hm
      have hl : lookupAmount m2 k = v := by
        rw [← hlook k]
        exact lookupAmount_eq_of_mem h1 hm
      have hmm := mem_of_lookupAmount_pos (m := m2) (k := k) (by rw [hl]; exact hv)
      rwa [hl] at hmm
    · intro hm
      have hv := hpos2 _ hm
      have hl : lookupAmount m1 k = v := by
        rw [hlook k]
        exact lookupAmount_eq_of_mem h2 hm
      have hmm := mem_of_lookupAmount_pos (m := m1) (k := k) (by rw [hl]; exact hv)
      rwa [hl] at hmm
  exact (List.perm_ext_iff_of_nodup (h1.of_map _) (h2.of_map _)).mpr hmem

theorem categoryTotalsOf_nodup_keys (v : List Transaction) :
    ((categoryTotalsOf v).map Prod.fst).Nodup :=
  nodup_keys_catFold _ [] (by simp)

theorem categoryTotalsOf_pos (v : List Transaction) :
    ∀ p ∈ categoryTotalsOf v, 0 < p.2 :=
  pos_values_catFold _ []
    (fun t ht => ne_of_lt (of_decide_eq_true (List.mem_filter.mp ht).2)) (by simp)

theorem categoryTotalsOf_perm {v1 v2 : List Transaction} (h : v1.Perm v2) :
    (categoryTotalsOf v1).Perm (categoryTotalsOf v2) :=
  assoc_perm_of_lookup_eq (categoryTotalsOf_nodup_keys v1) (categoryTotalsOf_nodup_keys v2)
    (categoryTotalsOf_pos v1) (categoryTotalsOf_pos v2)
    (fun k => lookupAmount_categoryTotalsOf_perm h k)

theorem allExpensesOf_eq_of_perm {v1 v2 : List Transaction} (h : v1.Perm v2)
    (hdist : ((simplifiedOf v1).map fun x => |x.amount|).Nodup) :
    allExpensesOf v1 = allExpensesOf v2 := by
  unfold allExpensesOf
  exact insertionSort_amtGe_eq_of_perm ((simplifiedOf_perm h).filter _)
    (hdist.sublist ((List.filter_sublist _).map _))

theorem topTransactionsOf_eq_of_perm {v1 v2 : List Transaction} (h : v1.Perm v2)
    (hdist : ((simplifiedOf v1).map fun x => |x.amount|).Nodup) :
    topTransactionsOf v1 = topTransactionsOf v2 := by
  unfold topTransactionsOf
  rw [allExpensesOf_eq_of_perm h hdist]

theorem topIncomeOf_eq_of_perm {v1 v2 : List Transaction} (h : v1.Perm v2)
    (hdist : ((simplifiedOf v1).map fun x => |x.amount|).Nodup) :
    topIncomeOf v1 = topIncomeOf v2 := by
  unfold topIncomeOf
  rw [insertionSort_amtGe_eq_of_perm ((simplifiedOf_perm h).filter _)
    (hdist.sublist ((List.filter_sublist _).map _))]

theorem topExpensesOf_eq_of_perm {v1 v2 : List Transaction} (h : v1.Perm v2)
    (hdist : ((categoryTotalsOf v1).map Prod.snd).Nodup) :
    topExpensesOf v1 = topExpensesOf v2 := by
  unfold topExpensesOf
  rw [insertionSort_valGe_eq_of_perm (categoryTotalsOf_perm h) hdist]

/-- C9 (amended): for permuted inputs the date bounds, totals, uncategorized
count and daily average coincide; the category breakdown coincides as a
key→amount mapping and as a multiset of entries; `simplified_transactions`
and `large_transactions` are permutations of one another (they follow input
order, which is what defeats full record equality); and the three top-N
lists coincide whenever their sort keys (absolute amounts, category totals)
are pairwise distinct — ties are the only remaining order sensitivity. -/
theorem C9_order_insensitivity_amended (l1 l2 : List Transaction) (hp : l1.Perm l2) :
    ((calculate_weekly_stats l1).week_start = (calculate_weekly_stats l2).week_start ∧
     (calculate_weekly_stats l1).week_end = (calculate_weekly_stats l2).week_end ∧
     (calculate_weekly_stats l1).total_income = (calculate_weekly_stats l2).total_income ∧
     (calculate_weekly_stats l1).total_expense = (calculate_weekly_stats l2).total_expense ∧
     (calculate_weekly_stats l1).net_change = (calculate_weekly_stats l2).net_change ∧
     (calculate_weekly_stats l1).uncategorized_count
       = (calculate_weekly_stats l2).uncategorized_count ∧
     (calculate_weekly_stats l1).daily_average = (calculate_weekly_stats l2).daily_average) ∧
    (∀ k, lookupAmount (calculate_weekly_stats l1).category_breakdown k
        = lookupAmount (calculate_weekly_stats l2).category_breakdown k) ∧
    (calculate_weekly_stats l1).category_breakdown.Perm
      (calculate_weekly_stats l2).category_breakdown ∧
    (calculate_weekly_stats l1).simplified_transactions.Perm
      (calculate_weekly_stats l2).simplified_transactions ∧
    (calculate_weekly_stats l1).large_transactions.Perm
      (calculate_weekly_stats l2).large_transactions ∧
    (((calculate_weekly_stats l1).simplified_transactions.map fun x => |x.amount|).Nodup →
      (calculate_weekly_stats l1).top_transactions
        = (calculate_weekly_stats l2).top_transactions ∧
      (calculate_weekly_stats l1).top_income_transactions
        = (calculate_weekly_stats l2).top_income_transactions) ∧
    (((calculate_weekly_stats l1).category_breakdown.map Prod.snd).Nodup →
      (calculate_weekly_stats l1).top_expenses = (calculate_weekly_stats l2).top_expenses) := by
  by_cases hv : filterValid l1 = []
  · have hpf : (filterValid l1).Perm (filterValid l2) := hp.filter isValidTxn
    rw [hv] at hpf
    have hv2 : filterValid l2 = [] := List.Perm.eq_nil hpf.symm
    rw [calculate_weekly_stats_nil hv, calculate_weekly_stats_nil hv2]
    exact ⟨⟨rfl, rfl, rfl, rfl, rfl, rfl, rfl⟩, fun k => rfl, List.Perm.refl _,
      List.Perm.refl _, List.Perm.refl _, fun _ => ⟨rfl, rfl⟩, fun _ => rfl⟩
  · have hpf : (filterValid l1).Perm (filterValid l2) := hp.filter isValidTxn
    have hv2 : ¬ filterValid l2 = [] := fun he => hv (List.Perm.eq_nil (he ▸ hpf))
    rw [calculate_weekly_stats_of_ne hv, calculate_weekly_stats_of_ne hv2]
    refine ⟨⟨?_, ?_, ?_, ?_, ?_, ?_, ?_⟩, ?_, ?_, ?_, ?_, ?_, ?_⟩
    · exact congrArg formatDate (pyMinList_perm (hpf.map _) (datesOf_ne_nil hv))
    · exact congrArg formatDate (pyMaxList_perm (hpf.map _) (datesOf_ne_nil hv))
    · exact totalIncomeOf_perm hpf
    · exact totalExpenseOf_perm hpf
    · exact congrArg₂ Sub.sub (totalIncomeOf_perm hpf) (totalExpenseOf_perm hpf)
    · exact uncategorizedCountOf_perm hpf
    · exact dailyAverageOf_perm hpf hv
    · exact fun k => lookupAmount_categoryTotalsOf_perm hpf k
    · exact categoryTotalsOf_perm hpf
    · exact simplifiedOf_perm hpf
    · exact largeOf_perm hpf
    · exact fun hdist => ⟨topTransactionsOf_eq_of_perm hpf hdist,
        topIncomeOf_eq_of_perm hpf hdist⟩
    · exact fun hdist => topExpensesOf_eq_of_perm hpf hdist

/-- C9 witness: swapping the two fixture transactions leaves every aggregate
field unchanged. -/
theorem C9_order_insensitivity_witness :
    (calculate_weekly_stats [exA, exB]).week_start
        = (calculate_weekly_stats [exB, exA]).week_start ∧
    (calculate_weekly_stats [exA, exB]).week_end
        = (calculate_weekly_stats [exB, exA]).week_end ∧
    (calculate_weekly_stats [exA, exB]).total_income
        = (calculate_weekly_stats [exB, exA]).total_income ∧
    (calculate_weekly_stats [exA, exB]).total_expense
        = (calculate_weekly_stats [exB, exA]).total_expense ∧
    (calculate_weekly_stats [exA, exB]).net_change
        = (calculate_weekly_stats [exB, exA]).net_change ∧
    (calculate_weekly_stats [exA, exB]).uncategorized_count
        = (calculate_weekly_stats [exB, exA]).uncategorized_count ∧
    (calculate_weekly_stats [exA, exB]).daily_average
        = (calculate_weekly_stats [exB, exA]).daily_average :=
  (C9_order_insensitivity_amended [exA, exB] [exB, exA] (List.Perm.swap exB exA [])).1
